import Mathlib

/-!
Verification of the local authentication and session-security core of the
open-gerege backend (templatev25): credential verification, MFA (TOTP and
backup codes), session issuance and revocation, account lockout, and the
password lifecycle.  The definitions below are a shallow embedding of
internal/service/auth_service.go, internal/service/registration_service.go,
the domain entities of internal/domain/auth.go and the registration
repository.  Go strings carrying password or hash material are modelled as
List Char, byte slices as List Nat (each entry < 256 where it matters), and
time.Time as a Nat tick count.  The memory-hard KDF (argon2.IDKey), the TOTP
validator and the AES-GCM secret box are external library calls and are kept
abstract inside a Crypto structure; everything else is executable.
-/

namespace Gerege

/-! ### Base64 RawStdEncoding (no padding), as used by encoding/base64 -/

/-- Index of a character in the standard base64 alphabet, mirroring the
decode table of encoding/base64 for the StdEncoding alphabet. -/
def b64idx (c : Char) : Option Nat :=
  let n := c.toNat
  if 65 ≤ n ∧ n ≤ 90 then some (n - 65)
  else if 97 ≤ n ∧ n ≤ 122 then some (n - 97 + 26)
  else if 48 ≤ n ∧ n ≤ 57 then some (n - 48 + 52)
  else if n = 43 then some 62
  else if n = 47 then some 63
  else none

/-- Character of the standard base64 alphabet at position k (mod 64). -/
def b64chr (k : Nat) : Char :=
  let j := k % 64
  Char.ofNat
    (if j < 26 then 65 + j
     else if j < 52 then 97 + (j - 26)
     else if j < 62 then 48 + (j - 52)
     else if j = 62 then 43
     else 47)

/-- base64.RawStdEncoding.EncodeToString on a byte list. -/
def b64encode : List Nat → List Char
  | [] => []
  | [a] => [b64chr (a / 4), b64chr (a % 4 * 16)]
  | [a, b] => [b64chr (a / 4), b64chr (a % 4 * 16 + b / 16), b64chr (b % 16 * 4)]
  | a :: b :: c :: rest =>
      b64chr (a / 4) :: b64chr (a % 4 * 16 + b / 16) ::
      b64chr (b % 16 * 4 + c / 64) :: b64chr (c % 64) :: b64encode rest

/-- base64.RawStdEncoding.DecodeString on a character list. -/
def b64decode : List Char → Option (List Nat)
  | [] => some []
  | [_] => none
  | [w, x] => do
      let a ← b64idx w
      let b ← b64idx x
      some [a * 4 + b / 16]
  | [w, x, y] => do
      let a ← b64idx w
      let b ← b64idx x
      let c ← b64idx y
      some [a * 4 + b / 16, b % 16 * 16 + c / 4]
  | w :: x :: y :: z :: rest => do
      let a ← b64idx w
      let b ← b64idx x
      let c ← b64idx y
      let d ← b64idx z
      let tail ← b64decode rest
      some ((a * 4 + b / 16) :: (b % 16 * 16 + c / 4) :: (c % 4 * 64 + d) :: tail)

theorem b64idx_b64chr_of_lt {j : Nat} (h : j < 64) : b64idx (b64chr j) = some j := by
  have : ∀ i, i < 64 → b64idx (b64chr i) = some i := by decide
  exact this j h

theorem b64chr_mod (k : Nat) : b64chr k = b64chr (k % 64) := by
  have h : k % 64 % 64 = k % 64 := by omega
  simp [b64chr, h]

theorem b64idx_b64chr (k : Nat) : b64idx (b64chr k) = some (k % 64) := by
  rw [b64chr_mod]
  exact b64idx_b64chr_of_lt (Nat.mod_lt _ (by omega))

theorem b64chr_ne_dollar (k : Nat) : b64chr k ≠ '$' := by
  rw [b64chr_mod]
  have : ∀ i, i < 64 → b64chr i ≠ '$' := by decide
  exact this _ (Nat.mod_lt _ (by omega))

theorem dollar_ne_b64chr (k : Nat) : ¬ ('$' = b64chr k) :=
  fun h => b64chr_ne_dollar k h.symm

theorem dollar_not_mem_b64encode (l : List Nat) : '$' ∉ b64encode l := by
  induction l using b64encode.induct with
  | case1 => simp [b64encode]
  | case2 a => simp [b64encode, dollar_ne_b64chr]
  | case3 a b => simp [b64encode, dollar_ne_b64chr]
  | case4 a b c rest ih =>
      simp only [b64encode, List.mem_cons, not_or]
      exact ⟨dollar_ne_b64chr _, dollar_ne_b64chr _, dollar_ne_b64chr _,
        dollar_ne_b64chr _, ih⟩

theorem b64_roundtrip (l : List Nat) (h : ∀ b ∈ l, b < 256) :
    b64decode (b64encode l) = some l := by
  induction l using b64encode.induct with
  | case1 => simp [b64encode, b64decode]
  | case2 a =>
      have ha : a < 256 := h a (by simp)
      simp only [b64encode, b64decode, b64idx_b64chr, Option.bind_eq_bind,
        Option.some_bind]
      have h1 : a / 4 % 64 = a / 4 := Nat.mod_eq_of_lt (by omega)
      have h2 : a % 4 * 16 % 64 = a % 4 * 16 := Nat.mod_eq_of_lt (by omega)
      simp only [h1, h2, Option.some.injEq, List.cons.injEq, and_true]
      omega
  | case3 a b =>
      have ha : a < 256 := h a (by simp)
      have hb : b < 256 := h b (by simp)
      simp only [b64encode, b64decode, b64idx_b64chr, Option.bind_eq_bind,
        Option.some_bind]
      have h1 : a / 4 % 64 = a / 4 := Nat.mod_eq_of_lt (by omega)
      have h2 : (a % 4 * 16 + b / 16) % 64 = a % 4 * 16 + b / 16 :=
        Nat.mod_eq_of_lt (by omega)
      have h3 : b % 16 * 4 % 64 = b % 16 * 4 := Nat.mod_eq_of_lt (by omega)
      simp only [h1, h2, h3, Option.some.injEq, List.cons.injEq, and_true]
      constructor <;> omega
  | case4 a b c rest ih =>
      have ha : a < 256 := h a (by simp)
      have hb : b < 256 := h b (by simp)
      have hc : c < 256 := h c (by simp)
      have hrest : ∀ x ∈ rest, x < 256 := fun x hx => h x (by simp [hx])
      show b64decode (b64chr (a / 4) :: b64chr (a % 4 * 16 + b / 16) ::
        b64chr (b % 16 * 4 + c / 64) :: b64chr (c % 64) :: b64encode rest) = _
      simp only [b64decode, b64idx_b64chr, Option.bind_eq_bind, Option.some_bind,
        ih hrest]
      have h1 : a / 4 % 64 = a / 4 := Nat.mod_eq_of_lt (by omega)
      have h2 : (a % 4 * 16 + b / 16) % 64 = a % 4 * 16 + b / 16 :=
        Nat.mod_eq_of_lt (by omega)
      have h3 : (b % 16 * 4 + c / 64) % 64 = b % 16 * 4 + c / 64 :=
        Nat.mod_eq_of_lt (by omega)
      have h4 : c % 64 % 64 = c % 64 := by omega
      simp only [h1, h2, h3, h4, Option.some.injEq, List.cons.injEq, and_true]
      refine ⟨by omega, by omega, by omega⟩

/-! ### Splitting on a separator character (strings.Split with a 1-char sep) -/

/-- strings.Split on a single separator character, over character lists. -/
def splitOnChar (c : Char) : List Char → List (List Char)
  | [] => [[]]
  | x :: xs =>
      if x = c then [] :: splitOnChar c xs
      else
        match splitOnChar c xs with
        | [] => [[x]]
        | h :: t => (x :: h) :: t

theorem splitOnChar_ne_nil (c : Char) (l : List Char) : splitOnChar c l ≠ [] := by
  induction l with
  | nil => simp [splitOnChar]
  | cons x xs ih =>
      simp only [splitOnChar]
      split
      · simp
      · split <;> simp

theorem splitOnChar_not_mem {c : Char} {l : List Char} (h : c ∉ l) :
    splitOnChar c l = [l] := by
  induction l with
  | nil => rfl
  | cons x xs ih =>
      have hx : x ≠ c := fun hx => h (hx ▸ List.mem_cons_self x xs)
      have hxs : c ∉ xs := fun hm => h (List.mem_cons_of_mem _ hm)
      simp [splitOnChar, if_neg hx, ih hxs]

theorem splitOnChar_append {c : Char} {l r : List Char} (h : c ∉ l) :
    splitOnChar c (l ++ c :: r) = l :: splitOnChar c r := by
  induction l with
  | nil => simp [splitOnChar]
  | cons x xs ih =>
      have hx : x ≠ c := fun hx => h (hx ▸ List.mem_cons_self x xs)
      have hxs : c ∉ xs := fun hm => h (List.mem_cons_of_mem _ hm)
      simp only [List.cons_append, splitOnChar, if_neg hx]
      rw [show (xs ++ c :: r : List Char) = xs.append (c :: r) from rfl] at *
      rw [ih hxs]

/-! ### fmt.Sscanf style parsing of the hash header fields -/

/-- Parse a run of leading decimal digits, mirroring an fmt.Sscanf percent-d
conversion: fails when no digit is present, and leaves the remainder. -/
def scanNat (l : List Char) : Option (Nat × List Char) :=
  let ds := l.takeWhile Char.isDigit
  let rest := l.dropWhile Char.isDigit
  if ds.isEmpty then none
  else some (ds.foldl (fun acc ch => acc * 10 + (ch.toNat - 48)) 0, rest)

/-- fmt.Sscanf with format "v=%d" (auth_service.go, verifyPassword). -/
def scanVersion (l : List Char) : Option Nat :=
  match l with
  | 'v' :: '=' :: rest => (scanNat rest).map Prod.fst
  | _ => none

/-- fmt.Sscanf with format "m=%d,t=%d,p=%d" (auth_service.go, verifyPassword);
returns (memory, time, threads). -/
def scanParams (l : List Char) : Option (Nat × Nat × Nat) :=
  match l with
  | 'm' :: '=' :: r1 =>
      match scanNat r1 with
      | some (m, ',' :: 't' :: '=' :: r2) =>
          match scanNat r2 with
          | some (t, ',' :: 'p' :: '=' :: r3) =>
              match scanNat r3 with
              | some (p, _) => some (m, t, p)
              | none => none
          | _ => none
      | _ => none
  | _ => none

/-! ### Domain entities (internal/domain/auth.go) -/

/-- domain.UserStatusActive. -/
def userStatusActive : String := "active"

/-- domain.User restricted to the fields the auth core reads or writes. -/
structure User where
  id : Nat
  email : String
  status : String
  loginCount : Nat := 0
  lastLoginAt : Option Nat := none
  deriving DecidableEq, Repr

/-- domain.UserCredential (table user_credentials). -/
structure Credential where
  userId : Nat
  passwordHash : List Char
  passwordChangedAt : Option Nat := none
  failedLoginAttempts : Nat := 0
  lockedUntil : Option Nat := none
  mustChangePassword : Bool := false
  deriving DecidableEq, Repr

/-- UserCredential.IsLocked: true iff LockedUntil is set and now is before it. -/
def Credential.isLocked (c : Credential) (now : Nat) : Bool :=
  match c.lockedUntil with
  | none => false
  | some t => now < t

/-- domain.UserMFATotp (table user_mfa_totp). -/
structure MFATotp where
  userId : Nat
  secretEncrypted : String
  isEnabled : Bool
  verifiedAt : Option Nat := none
  deriving DecidableEq, Repr

/-- domain.UserMFABackupCode (table user_mfa_backup_codes); the salt is stored
base64 encoded, the usedAt marker is null while the code is unused. -/
structure BackupCode where
  id : Nat
  userId : Nat
  codeHash : List Char
  salt : List Char
  usedAt : Option Nat := none
  deriving DecidableEq, Repr

/-- domain.PasswordHistory (table password_history). -/
structure PasswordHistoryEntry where
  userId : Nat
  passwordHash : List Char
  deriving DecidableEq, Repr

/-- domain.Session, the durable mirror row (table sessions). -/
structure DBSession where
  id : String
  userId : Nat
  ipAddress : String
  userAgent : String
  expiresAt : Nat
  lastActivityAt : Nat
  revokedAt : Option Nat := none
  revokedReason : String := ""
  deriving DecidableEq, Repr

/-- domain.LoginHistory (table login_history). -/
structure LoginHistoryEntry where
  userId : Option Nat
  email : String
  ipAddress : String
  userAgent : String
  loginMethod : String := "local"
  success : Bool
  failureReason : String := ""
  mfaUsed : Bool := false
  deriving DecidableEq, Repr

/-- domain.SecurityAuditTrail; the JSON old and new value payloads are elided
as they never feed back into control flow. -/
structure AuditEvent where
  userId : Option Nat
  action : String
  targetType : String
  targetId : String
  ipAddress : String
  userAgent : String
  deriving DecidableEq, Repr

/-- domain.PasswordResetToken (table password_reset_tokens). -/
structure ResetToken where
  id : Nat
  userId : Nat
  token : String
  expiresAt : Nat
  usedAt : Option Nat := none
  deriving DecidableEq, Repr

/-- PasswordResetToken.IsExpired: time.Now().After(ExpiresAt). -/
def ResetToken.isExpired (t : ResetToken) (now : Nat) : Bool :=
  t.expiresAt < now

/-- PasswordResetToken.IsUsed. -/
def ResetToken.isUsed (t : ResetToken) : Bool :=
  t.usedAt ≠ none

/-- domain.EmailVerificationToken (table email_verification_tokens). -/
structure VerificationToken where
  id : Nat
  userId : Nat
  token : String
  expiresAt : Nat
  usedAt : Option Nat := none
  deriving DecidableEq, Repr

/-! ### Relational store state, fast store state, configuration, crypto -/

/-- The relational rows the auth core reads and writes, as seen through
repository.AuthRepository and repository.RegistrationRepository. -/
structure AuthDB where
  users : List User := []
  credentials : List Credential := []
  mfas : List MFATotp := []
  backupCodes : List BackupCode := []
  passwordHistory : List PasswordHistoryEntry := []
  sessionRows : List DBSession := []
  resetTokens : List ResetToken := []
  verificationTokens : List VerificationToken := []
  loginHistory : List LoginHistoryEntry := []
  auditTrail : List AuditEvent := []
  deriving DecidableEq, Repr

/-- service.SessionData, the ephemeral session record kept in the fast store. -/
structure SessionData where
  sessionId : String
  userId : Nat
  email : String
  ipAddress : String
  userAgent : String
  createdAt : Nat
  expiresAt : Nat
  lastActivityAt : Nat
  deriving DecidableEq, Repr

/-- service.MFAPendingData, the partially authenticated identity parked
between password verification and MFA completion. -/
structure MFAPendingData where
  userId : Nat
  email : String
  ipAddress : String
  userAgent : String
  expiresAt : Nat
  deriving DecidableEq, Repr

/-- Modelled from the spec: the fast key-value store (service.SessionStore is
declared outside the provided sources); per spec section 6 it supports get,
set with TTL and delete for Session and MFAPendingAuth records, with expiry
enforced by the store. -/
structure FastStore where
  sessions : List SessionData := []
  mfaTokens : List (String × MFAPendingData) := []
  deriving DecidableEq, Repr

/-- Modelled from the spec: config.LocalAuthConfig is outside the provided
sources; its fields are pinned by their uses in auth_service.go and
registration_service.go.  Durations are in the same ticks as now. -/
structure LocalAuthConfig where
  passwordMinLength : Nat
  lockoutThreshold : Nat
  lockoutDuration : Nat
  mfaTokenTTL : Nat
  sessionTTL : Nat
  passwordHistoryCount : Nat
  deriving DecidableEq, Repr

/-- The external cryptographic primitives: argon2.IDKey (password, salt,
time, memory, threads, keyLen), totp.Validate (code, secret) and the AES-GCM
secret box of encryptTOTPSecret and decryptTOTPSecret.  They are library
calls, kept abstract. -/
structure Crypto where
  idKey : List Char → List Nat → Nat → Nat → Nat → Nat → List Nat
  totpValidate : String → String → Bool
  encryptSecret : String → String
  decryptSecret : String → Option String

/-! ### Repository operations

The AuthRepository implementation is not among the provided sources; per
spec section 6 the relational store is accessed through simple CRUD
operations with no core logic of its own, so each operation below is the
plain row lookup or row update its name and call sites dictate.  Those that
carry logic of their own (increment, lock, reset) follow spec section 4.2.
The RegistrationRepository operations mirror registration_repo.go, which is
among the sources. -/

/-- AuthRepository.GetUserByEmail: first user row with the given email. -/
def getUserByEmail (db : AuthDB) (email : String) : Option User :=
  db.users.find? (fun u => u.email == email)

/-- AuthRepository.GetCredentialByUserID. -/
def getCredentialByUserID (db : AuthDB) (uid : Nat) : Option Credential :=
  db.credentials.find? (fun c => c.userId == uid)

/-- Modelled from the spec: AuthRepository.IncrementFailedAttempts atomically
increments the credential's failed-attempt counter (spec section 4.2). -/
def incrementFailedAttempts (db : AuthDB) (uid : Nat) : AuthDB :=
  { db with credentials := db.credentials.map (fun c =>
      if c.userId == uid then { c with failedLoginAttempts := c.failedLoginAttempts + 1 } else c) }

/-- Modelled from the spec: AuthRepository.LockAccount sets lock-until. -/
def lockAccount (db : AuthDB) (uid : Nat) (lockUntil : Nat) : AuthDB :=
  { db with credentials := db.credentials.map (fun c =>
      if c.userId == uid then { c with lockedUntil := some lockUntil } else c) }

/-- Modelled from the spec: AuthRepository.UnlockAccount clears lock-until
immediately (spec section 4.2). -/
def unlockAccountRow (db : AuthDB) (uid : Nat) : AuthDB :=
  { db with credentials := db.credentials.map (fun c =>
      if c.userId == uid then { c with lockedUntil := none, failedLoginAttempts := 0 } else c) }

/-- Modelled from the spec: AuthRepository.ResetFailedAttempts resets the
failed-attempt counter to zero (spec section 4.2). -/
def resetFailedAttempts (db : AuthDB) (uid : Nat) : AuthDB :=
  { db with credentials := db.credentials.map (fun c =>
      if c.userId == uid then { c with failedLoginAttempts := 0 } else c) }

/-- AuthRepository.GetMFAByUserID. -/
def getMFAByUserID (db : AuthDB) (uid : Nat) : Option MFATotp :=
  db.mfas.find? (fun m => m.userId == uid)

/-- Modelled from the spec: AuthRepository.EnableMFA flips the enabled flag
and records the verified-at timestamp (spec section 3, MFAConfig). -/
def enableMFA (db : AuthDB) (uid : Nat) (now : Nat) : AuthDB :=
  { db with mfas := db.mfas.map (fun m =>
      if m.userId == uid then { m with isEnabled := true, verifiedAt := some now } else m) }

/-- Modelled from the spec: AuthRepository.DisableMFA clears the flag. -/
def disableMFARow (db : AuthDB) (uid : Nat) : AuthDB :=
  { db with mfas := db.mfas.map (fun m =>
      if m.userId == uid then { m with isEnabled := false, verifiedAt := none } else m) }

/-- AuthRepository.UpdateMFA: replace the row for the same user. -/
def updateMFA (db : AuthDB) (mfa : MFATotp) : AuthDB :=
  { db with mfas := db.mfas.map (fun m => if m.userId == mfa.userId then mfa else m) }

/-- AuthRepository.CreateMFA. -/
def createMFA (db : AuthDB) (mfa : MFATotp) : AuthDB :=
  { db with mfas := db.mfas ++ [mfa] }

/-- AuthRepository.GetUnusedBackupCodes: rows of the user whose used-at is
null, in row order. -/
def getUnusedBackupCodes (db : AuthDB) (uid : Nat) : List BackupCode :=
  db.backupCodes.filter (fun c => c.userId == uid && c.usedAt == none)

/-- Modelled from the spec: AuthRepository.UseBackupCode stamps used-at on
the row with the given id (spec section 3, BackupCode). -/
def useBackupCode (db : AuthDB) (codeId : Nat) (now : Nat) : AuthDB :=
  { db with backupCodes := db.backupCodes.map (fun c =>
      if c.id == codeId then { c with usedAt := some now } else c) }

/-- AuthRepository.CreateBackupCodes: bulk insert. -/
def createBackupCodes (db : AuthDB) (rows : List BackupCode) : AuthDB :=
  { db with backupCodes := db.backupCodes ++ rows }

/-- AuthRepository.DeleteBackupCodes: delete all rows of the user. -/
def deleteBackupCodes (db : AuthDB) (uid : Nat) : AuthDB :=
  { db with backupCodes := db.backupCodes.filter (fun c => !(c.userId == uid)) }

/-- AuthRepository.GetPasswordHistory: most recent entries of the user, up to
the configured count. -/
def getPasswordHistory (db : AuthDB) (uid : Nat) (count : Nat) : List PasswordHistoryEntry :=
  ((db.passwordHistory.filter (fun h => h.userId == uid)).reverse).take count

/-- AuthRepository.CreatePasswordHistory. -/
def createPasswordHistory (db : AuthDB) (entry : PasswordHistoryEntry) : AuthDB :=
  { db with passwordHistory := db.passwordHistory ++ [entry] }

/-- AuthRepository.UpdateCredential: replace the row for the same user. -/
def updateCredential (db : AuthDB) (cred : Credential) : AuthDB :=
  { db with credentials := db.credentials.map (fun c =>
      if c.userId == cred.userId then cred else c) }

/-- AuthRepository.CreateCredential. -/
def createCredential (db : AuthDB) (cred : Credential) : AuthDB :=
  { db with credentials := db.credentials ++ [cred] }

/-- AuthRepository.CreateSession (durable mirror row). -/
def createSessionRow (db : AuthDB) (s : DBSession) : AuthDB :=
  { db with sessionRows := db.sessionRows ++ [s] }

/-- Modelled from the spec: AuthRepository.RevokeSession marks the durable
mirror revoked with a reason (spec section 4.4 item 8). -/
def revokeSessionRow (db : AuthDB) (sid : String) (reason : String) (now : Nat) : AuthDB :=
  { db with sessionRows := db.sessionRows.map (fun s =>
      if s.id == sid then { s with revokedAt := some now, revokedReason := reason } else s) }

/-- Modelled from the spec: AuthRepository.RevokeAllUserSessions marks every
durable mirror of the user revoked (spec section 4.4 item 9). -/
def revokeAllUserSessions (db : AuthDB) (uid : Nat) (reason : String) (now : Nat) : AuthDB :=
  { db with sessionRows := db.sessionRows.map (fun s =>
      if s.userId == uid then { s with revokedAt := some now, revokedReason := reason } else s) }

/-- Modelled from the spec: AuthRepository.UpdateUserLoginStats updates the
login statistics of the user (last login, login count). -/
def updateUserLoginStats (db : AuthDB) (uid : Nat) (now : Nat) : AuthDB :=
  { db with users := db.users.map (fun u =>
      if u.id == uid then { u with loginCount := u.loginCount + 1, lastLoginAt := some now } else u) }

/-- AuthRepository.CreateLoginHistory (append-only). -/
def createLoginHistory (db : AuthDB) (entry : LoginHistoryEntry) : AuthDB :=
  { db with loginHistory := db.loginHistory ++ [entry] }

/-- AuthRepository.CreateAuditTrail (append-only). -/
def createAuditTrail (db : AuthDB) (e : AuditEvent) : AuthDB :=
  { db with auditTrail := db.auditTrail ++ [e] }

/-- RegistrationRepository.GetPasswordResetToken: row with the token string. -/
def getPasswordResetToken (db : AuthDB) (tokenStr : String) : Option ResetToken :=
  db.resetTokens.find? (fun t => t.token == tokenStr)

/-- RegistrationRepository.MarkPasswordResetTokenUsed: set used_at = now. -/
def markPasswordResetTokenUsed (db : AuthDB) (tokenId : Nat) (now : Nat) : AuthDB :=
  { db with resetTokens := db.resetTokens.map (fun t =>
      if t.id == tokenId then { t with usedAt := some now } else t) }

/-- RegistrationRepository.DeleteUserPasswordResetTokens: delete all rows of
the user. -/
def deleteUserPasswordResetTokens (db : AuthDB) (uid : Nat) : AuthDB :=
  { db with resetTokens := db.resetTokens.filter (fun t => !(t.userId == uid)) }

/-- RegistrationRepository.CreatePasswordResetToken. -/
def createPasswordResetToken (db : AuthDB) (t : ResetToken) : AuthDB :=
  { db with resetTokens := db.resetTokens ++ [t] }

/-! ### Fast store operations (service.SessionStore)

Modelled from the spec: the SessionStore implementation is outside the
provided sources; spec section 6 fixes it as a key-value store with get,
set-with-TTL and delete, the store dropping entries whose TTL has passed. -/

/-- SessionStore.StoreMFAToken with the configured TTL. -/
def storeMFAToken (st : FastStore) (token : String) (data : MFAPendingData) : FastStore :=
  { st with mfaTokens := (token, data) :: st.mfaTokens }

/-- SessionStore.GetMFAToken: nil when absent or past its TTL. -/
def getMFAToken (st : FastStore) (token : String) (now : Nat) : Option MFAPendingData :=
  match st.mfaTokens.find? (fun p => p.1 == token) with
  | none => none
  | some (_, d) => if now < d.expiresAt then some d else none

/-- SessionStore.DeleteMFAToken. -/
def deleteMFAToken (st : FastStore) (token : String) : FastStore :=
  { st with mfaTokens := st.mfaTokens.filter (fun p => !(p.1 == token)) }

/-- SessionStore.Create. -/
def fastCreateSession (st : FastStore) (s : SessionData) : FastStore :=
  { st with sessions := s :: st.sessions }

/-- SessionStore.Get: nil when absent or expired. -/
def fastGetSession (st : FastStore) (sid : String) (now : Nat) : Option SessionData :=
  match st.sessions.find? (fun s => s.sessionId == sid) with
  | none => none
  | some s => if now < s.expiresAt then some s else none

/-- SessionStore.Delete. -/
def fastDeleteSession (st : FastStore) (sid : String) : FastStore :=
  { st with sessions := st.sessions.filter (fun s => !(s.sessionId == sid)) }

/-- SessionStore.Refresh: replace the expiry of the session. -/
def fastRefreshSession (st : FastStore) (sid : String) (newExpiry : Nat) : FastStore :=
  { st with sessions := st.sessions.map (fun s =>
      if s.sessionId == sid then { s with expiresAt := newExpiry } else s) }

/-- SessionStore.DeleteAllUserSessions. -/
def fastDeleteAllUserSessions (st : FastStore) (uid : Nat) : FastStore :=
  { st with sessions := st.sessions.filter (fun s => !(s.userId == uid)) }

/-! ### Error taxonomy (auth_service.go and registration_service.go) -/

/-- The expected, recoverable error values of the auth core.  Wrapped
infrastructure or library failures (fmt.Errorf paths) are collapsed into the
internal constructor. -/
inductive AuthErr where
  | invalidCredentials
  | accountLocked
  | accountNotActive
  | invalidMFACode
  | mfaNotEnabled
  | mfaAlreadyEnabled
  | invalidSession
  | passwordTooWeak
  | passwordReused
  | userNotFound
  | credentialsNotFound
  | emailAlreadyExists
  | invalidVerificationToken
  | invalidResetToken
  | userAlreadyVerified
  | passwordMismatch
  | internal (msg : String)
  deriving DecidableEq, Repr

/-! ### Password hashing (auth_service.go, hashPassword and verifyPassword)

Argon2id parameters: time 1, memory 65536, threads 4, keyLen 32, saltLen 16,
argon2.Version 19; the encoded form produced by hashPassword is the string
produced by its Sprintf with these constants. -/

/-- Header of the self-describing encoded hash, the Sprintf output up to the
salt: all parameter fields are compile-time constants in the source. -/
def encodedHashHeader : List Char := "$argon2id$v=19$m=65536,t=1,p=4$".toList

/-- AuthService.hashPassword with the fresh random salt passed explicitly. -/
def hashPassword (cr : Crypto) (salt : List Nat) (password : List Char) : List Char :=
  let hash := cr.idKey password salt 1 65536 4 32
  encodedHashHeader ++ b64encode salt ++ '$' :: b64encode hash

/-- AuthService.verifyPassword: split on the dollar separator, re-derive
version, cost parameters, salt and digest from the encoded string, recompute
the digest with the same parameters and compare. -/
def verifyPassword (cr : Crypto) (password : List Char) (encodedHash : List Char) : Bool :=
  let parts := splitOnChar '$' encodedHash
  if parts.length ≠ 6 then false
  else
    match scanVersion (parts.getD 2 []), scanParams (parts.getD 3 []),
        b64decode (parts.getD 4 []), b64decode (parts.getD 5 []) with
    | some _, some (memory, time, threads), some salt, some hash =>
        let comparisonHash := cr.idKey password salt time memory threads hash.length
        hash == comparisonHash
    | _, _, _, _ => false

/-- AuthService.hashBackupCodeWithSalt: argon2id of the code with the
provided per-code salt, base64 encoded. -/
def hashBackupCodeWithSalt (cr : Crypto) (code : List Char) (salt : List Nat) : List Char :=
  b64encode (cr.idKey code salt 1 65536 4 32)

/-! ### Logging helpers (auth_service.go) -/

/-- AuthService.logFailedLogin. -/
def logFailedLogin (db : AuthDB) (userId : Option Nat) (email ip ua reason : String) : AuthDB :=
  createLoginHistory db
    { userId := userId, email := email, ipAddress := ip, userAgent := ua,
      loginMethod := "local", success := false, failureReason := reason }

/-- AuthService.logAudit with the JSON payloads elided. -/
def logAudit (db : AuthDB) (userId : Option Nat) (action targetType targetId ip ua : String) : AuthDB :=
  createAuditTrail db
    { userId := userId, action := action, targetType := targetType,
      targetId := targetId, ipAddress := ip, userAgent := ua }

/-- AuthService.logSuccessfulLogin: a login-history row plus an audit row. -/
def logSuccessfulLogin (db : AuthDB) (uid : Nat) (email ip ua : String) (mfaUsed : Bool) : AuthDB :=
  let db1 := createLoginHistory db
    { userId := some uid, email := email, ipAddress := ip, userAgent := ua,
      loginMethod := "local", success := true, mfaUsed := mfaUsed }
  logAudit db1 (some uid) "login_success" "user" (toString uid) ip ua

/-! ### Auth orchestrator (auth_service.go) -/

/-- service.LoginRequest. -/
structure LoginRequest where
  email : String
  password : List Char
  ipAddress : String
  userAgent : String
  deriving DecidableEq, Repr

/-- service.LoginResponse. -/
structure LoginResponse where
  requiresMFA : Bool
  mfaToken : String := ""
  session : Option SessionData := none
  user : Option User := none
  deriving DecidableEq, Repr

/-- AuthService.createSession: mint the fast-store record and the durable
mirror row; sid is the fresh session UUID. -/
def createSession (cfg : LocalAuthConfig) (now : Nat) (sid : String) (user : User)
    (ip ua : String) (db : AuthDB) (st : FastStore) :
    SessionData × AuthDB × FastStore :=
  let session : SessionData :=
    { sessionId := sid, userId := user.id, email := user.email, ipAddress := ip,
      userAgent := ua, createdAt := now, expiresAt := now + cfg.sessionTTL,
      lastActivityAt := now }
  let st1 := fastCreateSession st session
  let db1 := createSessionRow db
    { id := sid, userId := user.id, ipAddress := ip, userAgent := ua,
      expiresAt := now + cfg.sessionTTL, lastActivityAt := now }
  (session, db1, st1)

/-- AuthService.Login; mfaTok and sid are the fresh UUIDs drawn inside the
call, now is the current time. -/
def login (cr : Crypto) (cfg : LocalAuthConfig) (now : Nat) (mfaTok sid : String)
    (req : LoginRequest) (db : AuthDB) (st : FastStore) :
    Except AuthErr LoginResponse × AuthDB × FastStore :=
  match getUserByEmail db req.email with
  | none =>
      (.error .invalidCredentials,
        logFailedLogin db none req.email req.ipAddress req.userAgent "user not found", st)
  | some user =>
      if user.status ≠ userStatusActive then
        (.error .accountNotActive,
          logFailedLogin db (some user.id) req.email req.ipAddress req.userAgent
            "account not active", st)
      else
        match getCredentialByUserID db user.id with
        | none =>
            (.error .credentialsNotFound,
              logFailedLogin db (some user.id) req.email req.ipAddress req.userAgent
                "no credentials", st)
        | some cred =>
            if cred.isLocked now then
              (.error .accountLocked,
                logFailedLogin db (some user.id) req.email req.ipAddress req.userAgent
                  "account locked", st)
            else if verifyPassword cr req.password cred.passwordHash = false then
              let db1 := incrementFailedAttempts db user.id
              let db2 :=
                match getCredentialByUserID db1 user.id with
                | some newCred =>
                    if cfg.lockoutThreshold ≤ newCred.failedLoginAttempts then
                      logAudit (lockAccount db1 user.id (now + cfg.lockoutDuration))
                        (some user.id) "account_lock" "user" (toString user.id)
                        req.ipAddress req.userAgent
                    else db1
                | none => db1
              (.error .invalidCredentials,
                logFailedLogin db2 (some user.id) req.email req.ipAddress req.userAgent
                  "invalid password", st)
            else
              let db3 := resetFailedAttempts db user.id
              let noMFA :=
                let (session, db4, st1) :=
                  createSession cfg now sid user req.ipAddress req.userAgent db3 st
                let db5 := updateUserLoginStats db4 user.id now
                let db6 := logSuccessfulLogin db5 user.id req.email req.ipAddress
                  req.userAgent false
                ((.ok { requiresMFA := false, session := some session,
                        user := some user } : Except AuthErr LoginResponse), db6, st1)
              match getMFAByUserID db3 user.id with
              | some mfa =>
                  if mfa.isEnabled then
                    let pending : MFAPendingData :=
                      { userId := user.id, email := user.email,
                        ipAddress := req.ipAddress, userAgent := req.userAgent,
                        expiresAt := now + cfg.mfaTokenTTL }
                    (.ok { requiresMFA := true, mfaToken := mfaTok }, db3,
                      storeMFAToken st mfaTok pending)
                  else noMFA
              | none => noMFA

/-- service.VerifyMFARequest. -/
structure VerifyMFARequest where
  mfaToken : String
  code : String
  ipAddress : String
  userAgent : String
  deriving DecidableEq, Repr

/-- AuthService.VerifyMFA: complete a pending login with a TOTP code. -/
def verifyMFA (cr : Crypto) (cfg : LocalAuthConfig) (now : Nat) (sid : String)
    (req : VerifyMFARequest) (db : AuthDB) (st : FastStore) :
    Except AuthErr LoginResponse × AuthDB × FastStore :=
  match getMFAToken st req.mfaToken now with
  | none => (.error .invalidSession, db, st)
  | some pending =>
      match getMFAByUserID db pending.userId with
      | none => (.error .mfaNotEnabled, db, st)
      | some mfa =>
          if ¬ mfa.isEnabled then (.error .mfaNotEnabled, db, st)
          else
            match cr.decryptSecret mfa.secretEncrypted with
            | none => (.error (.internal "failed to decrypt MFA secret"), db, st)
            | some secret =>
                if cr.totpValidate req.code secret = false then
                  (.error .invalidMFACode,
                    logFailedLogin db (some pending.userId) pending.email
                      req.ipAddress req.userAgent "invalid MFA code", st)
                else
                  let st1 := deleteMFAToken st req.mfaToken
                  match getUserByEmail db pending.email with
                  | none => (.error .userNotFound, db, st1)
                  | some user =>
                      let (session, db1, st2) := createSession cfg now sid user
                        req.ipAddress req.userAgent db st1
                      let db2 := updateUserLoginStats db1 user.id now
                      let db3 := logSuccessfulLogin db2 user.id pending.email
                        req.ipAddress req.userAgent true
                      (.ok { requiresMFA := false, session := some session,
                             user := some user }, db3, st2)

/-- The per-code matcher of AuthService.VerifyBackupCode: decode the stored
salt (skipping rows with an invalid salt), hash the provided code with that
salt and compare. -/
def backupCodeMatches (cr : Crypto) (code : String) (c : BackupCode) : Bool :=
  match b64decode c.salt with
  | none => false
  | some salt => c.codeHash == hashBackupCodeWithSalt cr code.toList salt

/-- AuthService.VerifyBackupCode: complete a pending login by consuming an
unused backup code. -/
def verifyBackupCode (cr : Crypto) (cfg : LocalAuthConfig) (now : Nat) (sid : String)
    (mfaToken code ip ua : String) (db : AuthDB) (st : FastStore) :
    Except AuthErr LoginResponse × AuthDB × FastStore :=
  match getMFAToken st mfaToken now with
  | none => (.error .invalidSession, db, st)
  | some pending =>
      let codes := getUnusedBackupCodes db pending.userId
      match codes.find? (backupCodeMatches cr code) with
      | none =>
          (.error .invalidMFACode,
            logFailedLogin db (some pending.userId) pending.email ip ua
              "invalid backup code", st)
      | some matchedCode =>
          let db1 := useBackupCode db matchedCode.id now
          let db2 := logAudit db1 (some pending.userId) "mfa_backup_used"
            "backup_code" (toString matchedCode.id) ip ua
          let st1 := deleteMFAToken st mfaToken
          match getUserByEmail db2 pending.email with
          | none => (.error .userNotFound, db2, st1)
          | some user =>
              let (session, db3, st2) := createSession cfg now sid user ip ua db2 st1
              let db4 := updateUserLoginStats db3 user.id now
              let db5 := logSuccessfulLogin db4 user.id pending.email ip ua true
              (.ok { requiresMFA := false, session := some session,
                     user := some user }, db5, st2)

/-- AuthService.SetupTOTP: secret is the fresh random TOTP secret drawn by
totp.Generate; the provisioning URI is produced by the library and elided.
Returns the raw secret on success. -/
def setupTOTP (cr : Crypto) (uid : Nat) (secret : String) (db : AuthDB) :
    Except AuthErr String × AuthDB :=
  match getMFAByUserID db uid with
  | some existing =>
      if existing.isEnabled then (.error .mfaAlreadyEnabled, db)
      else
        (.ok secret, updateMFA db
          { existing with secretEncrypted := cr.encryptSecret secret,
                          isEnabled := false, verifiedAt := none })
  | none =>
      (.ok secret, createMFA db
        { userId := uid, secretEncrypted := cr.encryptSecret secret,
          isEnabled := false, verifiedAt := none })

/-- AuthService.generateBackupCodes: rnd i is the i-th draw of
(generateRandomCode, generateBackupCodeSalt) and baseId the first of the ten
serial row ids.  Returns the plaintext codes and stores each code hashed
with its own fresh random salt. -/
def generateBackupCodes (cr : Crypto) (rnd : Nat → String × List Nat) (baseId : Nat)
    (uid : Nat) (db : AuthDB) : List String × AuthDB :=
  let codes := (List.range 10).map (fun i => (rnd i).1)
  let rows : List BackupCode := (List.range 10).map (fun i =>
    { id := baseId + i, userId := uid,
      codeHash := hashBackupCodeWithSalt cr (rnd i).1.toList (rnd i).2,
      salt := b64encode (rnd i).2, usedAt := none })
  (codes, createBackupCodes db rows)

/-- AuthService.ConfirmTOTP: on a valid code, enable MFA and generate the
backup codes.  The plaintext codes returned by generateBackupCodes are
dropped on the floor here: the Go function returns only error. -/
def confirmTOTP (cr : Crypto) (now : Nat) (rnd : Nat → String × List Nat) (baseId : Nat)
    (uid : Nat) (code ip ua : String) (db : AuthDB) : Except AuthErr Unit × AuthDB :=
  match getMFAByUserID db uid with
  | none => (.error (.internal "MFA not set up"), db)
  | some mfa =>
      if mfa.isEnabled then (.error .mfaAlreadyEnabled, db)
      else
        match cr.decryptSecret mfa.secretEncrypted with
        | none => (.error (.internal "failed to decrypt secret"), db)
        | some secret =>
            if ¬ cr.totpValidate code secret then (.error .invalidMFACode, db)
            else
              let db1 := enableMFA db uid now
              let (_, db2) := generateBackupCodes cr rnd baseId uid db1
              let db3 := logAudit db2 (some uid) "mfa_enable" "user" (toString uid) ip ua
              (.ok (), db3)

/-- AuthService.DisableTOTP: requires a valid current code, then disables
MFA and deletes all backup codes. -/
def disableTOTP (cr : Crypto) (uid : Nat) (code ip ua : String)
    (db : AuthDB) : Except AuthErr Unit × AuthDB :=
  match getMFAByUserID db uid with
  | none => (.error .mfaNotEnabled, db)
  | some mfa =>
      if ¬ mfa.isEnabled then (.error .mfaNotEnabled, db)
      else
        match cr.decryptSecret mfa.secretEncrypted with
        | none => (.error (.internal "failed to decrypt secret"), db)
        | some secret =>
            if ¬ cr.totpValidate code secret then (.error .invalidMFACode, db)
            else
              let db1 := disableMFARow db uid
              let db2 := deleteBackupCodes db1 uid
              (.ok (), logAudit db2 (some uid) "mfa_disable" "user" (toString uid) ip ua)

/-- AuthService.GenerateBackupCodes (regeneration): requires MFA enabled,
deletes the existing codes and issues ten fresh ones, returning them. -/
def regenerateBackupCodes (cr : Crypto) (rnd : Nat → String × List Nat) (baseId : Nat)
    (uid : Nat) (ip ua : String) (db : AuthDB) : Except AuthErr (List String) × AuthDB :=
  match getMFAByUserID db uid with
  | none => (.error .mfaNotEnabled, db)
  | some mfa =>
      if ¬ mfa.isEnabled then (.error .mfaNotEnabled, db)
      else
        let db1 := deleteBackupCodes db uid
        let (codes, db2) := generateBackupCodes cr rnd baseId uid db1
        (.ok codes, logAudit db2 (some uid) "mfa_backup_regenerate" "user"
          (toString uid) ip ua)

/-- AuthService.ChangePassword: re-verify the current password, enforce the
length policy and the history window, push the current hash into the
history, then overwrite the credential; salt is the fresh random salt drawn
by hashPassword. -/
def changePassword (cr : Crypto) (cfg : LocalAuthConfig) (now : Nat) (salt : List Nat)
    (uid : Nat) (currentPass newPass : List Char) (ip ua : String) (db : AuthDB) :
    Except AuthErr Unit × AuthDB :=
  match getCredentialByUserID db uid with
  | none => (.error .credentialsNotFound, db)
  | some cred =>
      if ¬ verifyPassword cr currentPass cred.passwordHash then
        (.error .invalidCredentials, db)
      else if newPass.length < cfg.passwordMinLength then
        (.error .passwordTooWeak, db)
      else if (getPasswordHistory db uid cfg.passwordHistoryCount).any
          (fun h => verifyPassword cr newPass h.passwordHash) then
        (.error .passwordReused, db)
      else
        let newHash := hashPassword cr salt newPass
        let db1 := createPasswordHistory db
          { userId := uid, passwordHash := cred.passwordHash }
        let db2 := updateCredential db1
          { cred with passwordHash := newHash, passwordChangedAt := some now,
                      mustChangePassword := false }
        (.ok (), logAudit db2 (some uid) "password_change" "user" (toString uid) ip ua)

/-- AuthService.SetPassword (admin or setup or reset flow): length check,
hash with a fresh salt, then overwrite the existing credential or create a
new one; must-change is set to true. -/
def setPassword (cr : Crypto) (cfg : LocalAuthConfig) (now : Nat) (salt : List Nat)
    (uid : Nat) (password : List Char) (db : AuthDB) : Except AuthErr Unit × AuthDB :=
  if password.length < cfg.passwordMinLength then (.error .passwordTooWeak, db)
  else
    let hash := hashPassword cr salt password
    match getCredentialByUserID db uid with
    | some existing =>
        (.ok (), updateCredential db
          { existing with passwordHash := hash, passwordChangedAt := some now,
                          mustChangePassword := true })
    | none =>
        (.ok (), createCredential db
          { userId := uid, passwordHash := hash, passwordChangedAt := some now,
            failedLoginAttempts := 0, lockedUntil := none, mustChangePassword := true })

/-- AuthService.Logout: idempotent; a missing or expired session is treated
as already logged out. -/
def logout (now : Nat) (sid ip ua : String) (db : AuthDB) (st : FastStore) :
    Except AuthErr Unit × AuthDB × FastStore :=
  match fastGetSession st sid now with
  | none => (.ok (), db, st)
  | some session =>
      let st1 := fastDeleteSession st sid
      let db1 := revokeSessionRow db sid "user logout" now
      (.ok (), logAudit db1 (some session.userId) "session_revoke" "session" sid ip ua, st1)

/-- AuthService.LogoutAll: delete every fast-store session of the user and
revoke every durable mirror. -/
def logoutAll (now : Nat) (uid : Nat) (ip ua : String) (db : AuthDB) (st : FastStore) :
    Except AuthErr Unit × AuthDB × FastStore :=
  let st1 := fastDeleteAllUserSessions st uid
  let db1 := revokeAllUserSessions db uid "logout all" now
  (.ok (), logAudit db1 (some uid) "logout_all" "user" (toString uid) ip ua, st1)

/-- AuthService.RefreshSession: extend the expiry only of a currently valid
session. -/
def refreshSession (cfg : LocalAuthConfig) (now : Nat) (sid : String)
    (db : AuthDB) (st : FastStore) : Except AuthErr SessionData × AuthDB × FastStore :=
  match fastGetSession st sid now with
  | none => (.error .invalidSession, db, st)
  | some session =>
      let st1 := fastRefreshSession st sid (now + cfg.sessionTTL)
      (.ok { session with expiresAt := now + cfg.sessionTTL, lastActivityAt := now },
        db, st1)

/-- AuthService.UnlockAccount (administrative unlock, audited). -/
def unlockAccount (uid : Nat) (unlockedBy : Nat) (ip ua : String) (db : AuthDB) :
    Except AuthErr Unit × AuthDB :=
  (.ok (), logAudit (unlockAccountRow db uid) (some unlockedBy) "account_unlock"
    "user" (toString uid) ip ua)

/-! ### Registration service password-reset flows (registration_service.go) -/

/-- RegistrationService.ForgotPassword: deliberately succeeds when the email
is unknown; otherwise deletes the user's outstanding reset tokens and issues
a fresh one with a 1 hour expiry.  tokFresh is the fresh secure token and
tid the new row id; ticks are seconds. -/
def forgotPassword (now : Nat) (tokFresh : String) (tid : Nat) (email : String)
    (db : AuthDB) : Except AuthErr Unit × AuthDB :=
  match getUserByEmail db email with
  | none => (.ok (), db)
  | some user =>
      let db1 := deleteUserPasswordResetTokens db user.id
      let db2 := createPasswordResetToken db1
        { id := tid, userId := user.id, token := tokFresh,
          expiresAt := now + 3600, usedAt := none }
      (.ok (), db2)

/-- RegistrationService.ResetPassword: validate match and strength, consume
the token, set the password through the credential vault, delete the user's
remaining reset tokens and revoke every session. -/
def resetPassword (cr : Crypto) (cfg : LocalAuthConfig) (now : Nat) (salt : List Nat)
    (tokenStr : String) (newPassword confirmPassword : List Char)
    (db : AuthDB) (st : FastStore) : Except AuthErr Unit × AuthDB × FastStore :=
  if newPassword ≠ confirmPassword then (.error .passwordMismatch, db, st)
  else if newPassword.length < cfg.passwordMinLength then (.error .passwordTooWeak, db, st)
  else
    match getPasswordResetToken db tokenStr with
    | none => (.error .invalidResetToken, db, st)
    | some token =>
        if token.isExpired now || token.isUsed then (.error .invalidResetToken, db, st)
        else
          let db1 := markPasswordResetTokenUsed db token.id now
          match setPassword cr cfg now salt token.userId newPassword db1 with
          | (.error _, db2) => (.error (.internal "failed to set password"), db2, st)
          | (.ok (), db2) =>
              let db3 := deleteUserPasswordResetTokens db2 token.userId
              let (_, db4, st1) := logoutAll now token.userId "" "password reset" db3 st
              (.ok (), db4, st1)

/-! ### Iterated login attempts and the lockout interleaving model -/

/-- n consecutive Login calls with the same request (responses discarded). -/
def loginN (cr : Crypto) (cfg : LocalAuthConfig) (now : Nat) (mfaTok sid : String)
    (req : LoginRequest) : Nat → AuthDB × FastStore → AuthDB × FastStore
  | 0, s => s
  | n + 1, (db, st) =>
      let (_, db1, st1) := login cr cfg now mfaTok sid req db st
      loginN cr cfg now mfaTok sid req n (db1, st1)

/-- The first half of the failure branch of Login (auth_service.go line 140):
the atomic repository increment of the failed-attempt counter, acting on the
account's credential row. -/
def failIncr (c : Credential) : Credential :=
  { c with failedLoginAttempts := c.failedLoginAttempts + 1 }

/-- The second half of the failure branch of Login (auth_service.go lines
143 to 149): re-read the counter and set lock-until when it has reached the
threshold, acting on the account's credential row at time t. -/
def failCheck (cfg : LocalAuthConfig) (t : Nat) (c : Credential) : Credential :=
  if cfg.lockoutThreshold ≤ c.failedLoginAttempts then
    { c with lockedUntil := some (t + cfg.lockoutDuration) }
  else c

/-- One scheduled step of a concurrent failed-login handler. -/
inductive FailStep where
  | incr
  | check (t : Nat)
  deriving DecidableEq, Repr

/-- Run a schedule of failed-login steps over the shared credential row. -/
def runFailSteps (cfg : LocalAuthConfig) : List FailStep → Credential → Credential
  | [], c => c
  | .incr :: rest, c => runFailSteps cfg rest (failIncr c)
  | .check t :: rest, c => runFailSteps cfg rest (failCheck cfg t c)

/-- All order-preserving interleavings of two sequences of steps. -/
def interleavings : List FailStep → List FailStep → List (List FailStep)
  | [], ys => [ys]
  | x :: xs, [] => [x :: xs]
  | x :: xs, y :: ys =>
      (interleavings xs (y :: ys)).map (x :: ·) ++
      (interleavings (x :: xs) ys).map (y :: ·)
termination_by a b => a.length + b.length
decreasing_by
  all_goals simp only [List.length_cons]
  all_goals omega

/-! ### Helper lemmas about keyed row updates -/

theorem find?_map_keyed {α : Type} (key : α → Nat) (uid : Nat) (f : α → α)
    (hf : ∀ a, key a = uid → key (f a) = key a) (l : List α) :
    (l.map (fun a => if key a == uid then f a else a)).find? (fun a => key a == uid)
      = (l.find? (fun a => key a == uid)).map f := by
  induction l with
  | nil => rfl
  | cons x xs ih =>
      by_cases hx : (key x == uid) = true
      · have hfx : (key (f x) == uid) = true := by
          rw [hf x (by simpa using hx)]; exact hx
        have hg : (if key x == uid then f x else x) = f x := by simp [hx]
        rw [List.map_cons]
        simp [hg, List.find?_cons, hfx, hx]
      · have hx' : (key x == uid) = false := by simpa using hx
        have hg : (if key x == uid then f x else x) = x := by simp [hx']
        rw [List.map_cons, hg]
        simp only [List.find?_cons, hx']
        exact ih

/-! ### Projection lemmas: row groups untouched by an operation -/

@[simp] theorem getUserByEmail_incrementFailedAttempts (db : AuthDB) (uid : Nat) (e : String) :
    getUserByEmail (incrementFailedAttempts db uid) e = getUserByEmail db e := rfl

@[simp] theorem getUserByEmail_lockAccount (db : AuthDB) (uid lu : Nat) (e : String) :
    getUserByEmail (lockAccount db uid lu) e = getUserByEmail db e := rfl

@[simp] theorem getUserByEmail_resetFailedAttempts (db : AuthDB) (uid : Nat) (e : String) :
    getUserByEmail (resetFailedAttempts db uid) e = getUserByEmail db e := rfl

@[simp] theorem getUserByEmail_createLoginHistory (db : AuthDB) (x : LoginHistoryEntry) (e : String) :
    getUserByEmail (createLoginHistory db x) e = getUserByEmail db e := rfl

@[simp] theorem getUserByEmail_createAuditTrail (db : AuthDB) (x : AuditEvent) (e : String) :
    getUserByEmail (createAuditTrail db x) e = getUserByEmail db e := rfl

@[simp] theorem getUserByEmail_createSessionRow (db : AuthDB) (s : DBSession) (e : String) :
    getUserByEmail (createSessionRow db s) e = getUserByEmail db e := rfl

@[simp] theorem getUserByEmail_logFailedLogin (db : AuthDB) (uid : Option Nat)
    (em ip ua r e : String) :
    getUserByEmail (logFailedLogin db uid em ip ua r) e = getUserByEmail db e := rfl

@[simp] theorem getUserByEmail_logAudit (db : AuthDB) (uid : Option Nat)
    (a tt ti ip ua e : String) :
    getUserByEmail (logAudit db uid a tt ti ip ua) e = getUserByEmail db e := rfl

@[simp] theorem getCredentialByUserID_createLoginHistory (db : AuthDB)
    (x : LoginHistoryEntry) (uid : Nat) :
    getCredentialByUserID (createLoginHistory db x) uid = getCredentialByUserID db uid := rfl

@[simp] theorem getCredentialByUserID_createAuditTrail (db : AuthDB)
    (x : AuditEvent) (uid : Nat) :
    getCredentialByUserID (createAuditTrail db x) uid = getCredentialByUserID db uid := rfl

@[simp] theorem getCredentialByUserID_createSessionRow (db : AuthDB)
    (s : DBSession) (uid : Nat) :
    getCredentialByUserID (createSessionRow db s) uid = getCredentialByUserID db uid := rfl

@[simp] theorem getCredentialByUserID_updateUserLoginStats (db : AuthDB)
    (u now uid : Nat) :
    getCredentialByUserID (updateUserLoginStats db u now) uid = getCredentialByUserID db uid := rfl

@[simp] theorem getCredentialByUserID_createPasswordHistory (db : AuthDB)
    (x : PasswordHistoryEntry) (uid : Nat) :
    getCredentialByUserID (createPasswordHistory db x) uid = getCredentialByUserID db uid := rfl

@[simp] theorem getCredentialByUserID_logFailedLogin (db : AuthDB) (u : Option Nat)
    (em ip ua r : String) (uid : Nat) :
    getCredentialByUserID (logFailedLogin db u em ip ua r) uid = getCredentialByUserID db uid := rfl

@[simp] theorem getCredentialByUserID_logAudit (db : AuthDB) (u : Option Nat)
    (a tt ti ip ua : String) (uid : Nat) :
    getCredentialByUserID (logAudit db u a tt ti ip ua) uid = getCredentialByUserID db uid := rfl

@[simp] theorem getCredentialByUserID_logSuccessfulLogin (db : AuthDB) (u : Nat)
    (em ip ua : String) (m : Bool) (uid : Nat) :
    getCredentialByUserID (logSuccessfulLogin db u em ip ua m) uid
      = getCredentialByUserID db uid := rfl

@[simp] theorem getMFAByUserID_resetFailedAttempts (db : AuthDB) (u uid : Nat) :
    getMFAByUserID (resetFailedAttempts db u) uid = getMFAByUserID db uid := rfl

/-! ### Keyed-update lemmas: reading back the row an operation rewrote -/

theorem getCredentialByUserID_increment (db : AuthDB) (uid : Nat) :
    getCredentialByUserID (incrementFailedAttempts db uid) uid
      = (getCredentialByUserID db uid).map failIncr := by
  unfold getCredentialByUserID incrementFailedAttempts failIncr
  exact find?_map_keyed Credential.userId uid
    (fun c => { c with failedLoginAttempts := c.failedLoginAttempts + 1 })
    (fun c _ => rfl) db.credentials

theorem getCredentialByUserID_lockAccount (db : AuthDB) (uid lu : Nat) :
    getCredentialByUserID (lockAccount db uid lu) uid
      = (getCredentialByUserID db uid).map (fun c => { c with lockedUntil := some lu }) := by
  unfold getCredentialByUserID lockAccount
  exact find?_map_keyed Credential.userId uid
    (fun c => { c with lockedUntil := some lu }) (fun c _ => rfl) db.credentials

theorem getCredentialByUserID_reset (db : AuthDB) (uid : Nat) :
    getCredentialByUserID (resetFailedAttempts db uid) uid
      = (getCredentialByUserID db uid).map (fun c => { c with failedLoginAttempts := 0 }) := by
  unfold getCredentialByUserID resetFailedAttempts
  exact find?_map_keyed Credential.userId uid
    (fun c => { c with failedLoginAttempts := 0 }) (fun c _ => rfl) db.credentials

/-! ### Step lemmas about Login -/

/-- A Login attempt with the right account context but a wrong password:
invalid-credentials error, increment, and lock exactly when the incremented
counter has reached the threshold. -/
theorem login_wrong_password (cr : Crypto) (cfg : LocalAuthConfig) (now : Nat)
    (mfaTok sid : String) (req : LoginRequest) (db : AuthDB) (st : FastStore)
    (u : User) (c : Credential)
    (hu : getUserByEmail db req.email = some u)
    (hact : u.status = userStatusActive)
    (hc : getCredentialByUserID db u.id = some c)
    (hlocked : c.isLocked now = false)
    (hpw : verifyPassword cr req.password c.passwordHash = false) :
    login cr cfg now mfaTok sid req db st =
      (.error .invalidCredentials,
        logFailedLogin
          (if cfg.lockoutThreshold ≤ c.failedLoginAttempts + 1 then
            logAudit (lockAccount (incrementFailedAttempts db u.id) u.id
              (now + cfg.lockoutDuration)) (some u.id) "account_lock" "user"
              (toString u.id) req.ipAddress req.userAgent
          else incrementFailedAttempts db u.id)
          (some u.id) req.email req.ipAddress req.userAgent "invalid password",
        st) := by
  unfold login
  rw [hu]
  simp only [hact, ne_eq, not_true_eq_false, if_false, ite_false]
  rw [hc]
  simp only [hlocked, Bool.false_eq_true, if_false, ite_false, hpw]
  rw [getCredentialByUserID_increment, hc]
  simp only [Option.map_some', failIncr, if_true, ite_true]

/-- A Login attempt with the right account context, not locked, and the
correct password: the failed-attempt counter is reset to zero, whatever the
MFA branch taken afterwards. -/
theorem login_correct_password_resets (cr : Crypto) (cfg : LocalAuthConfig) (now : Nat)
    (mfaTok sid : String) (req : LoginRequest) (db : AuthDB) (st : FastStore)
    (u : User) (c : Credential)
    (hu : getUserByEmail db req.email = some u)
    (hact : u.status = userStatusActive)
    (hc : getCredentialByUserID db u.id = some c)
    (hlocked : c.isLocked now = false)
    (hpw : verifyPassword cr req.password c.passwordHash = true) :
    getCredentialByUserID (login cr cfg now mfaTok sid req db st).2.1 u.id
      = some { c with failedLoginAttempts := 0 } := by
  unfold login
  rw [hu]
  simp only [hact, ne_eq, not_true_eq_false, if_false, ite_false]
  rw [hc]
  simp only [hlocked, Bool.false_eq_true, if_false, ite_false, hpw, Bool.true_eq_false]
  unfold createSession
  split
  · split
    · simp only [getCredentialByUserID_reset, hc, Option.map_some']
    · simp only [getCredentialByUserID_logSuccessfulLogin,
        getCredentialByUserID_updateUserLoginStats, getCredentialByUserID_createSessionRow,
        getCredentialByUserID_reset, hc, Option.map_some']
  · simp only [getCredentialByUserID_logSuccessfulLogin,
      getCredentialByUserID_updateUserLoginStats, getCredentialByUserID_createSessionRow,
      getCredentialByUserID_reset, hc, Option.map_some']

theorem loginN_succ (cr : Crypto) (cfg : LocalAuthConfig) (now : Nat) (mfaTok sid : String)
    (req : LoginRequest) (n : Nat) (db : AuthDB) (st : FastStore) :
    loginN cr cfg now mfaTok sid req (n + 1) (db, st)
      = loginN cr cfg now mfaTok sid req n
          ((login cr cfg now mfaTok sid req db st).2.1,
           (login cr cfg now mfaTok sid req db st).2.2) := by
  rcases hE : login cr cfg now mfaTok sid req db st with ⟨r, db1, st1⟩
  simp [loginN, hE]

theorem loginN_add (cr : Crypto) (cfg : LocalAuthConfig) (now : Nat) (mfaTok sid : String)
    (req : LoginRequest) (m n : Nat) (s : AuthDB × FastStore) :
    loginN cr cfg now mfaTok sid req (m + n) s
      = loginN cr cfg now mfaTok sid req n (loginN cr cfg now mfaTok sid req m s) := by
  induction m generalizing s with
  | zero => rw [Nat.zero_add]; rfl
  | succ m ih =>
      obtain ⟨db, st⟩ := s
      have h : m + 1 + n = (m + n) + 1 := by omega
      rw [h, loginN_succ, loginN_succ, ih]

/-- Invariant of i consecutive failed attempts: while the incremented counter
stays below the threshold, each attempt adds one to the counter, leaves the
lock clear and does not touch the fast store. -/
theorem loginN_fail_inv (cr : Crypto) (cfg : LocalAuthConfig) (now : Nat)
    (mfaTok sid : String) (req : LoginRequest) (i : Nat) :
    ∀ (db : AuthDB) (st : FastStore) (u : User) (c : Credential),
    getUserByEmail db req.email = some u →
    u.status = userStatusActive →
    getCredentialByUserID db u.id = some c →
    c.lockedUntil = none →
    verifyPassword cr req.password c.passwordHash = false →
    c.failedLoginAttempts + i < cfg.lockoutThreshold →
    getUserByEmail (loginN cr cfg now mfaTok sid req i (db, st)).1 req.email = some u ∧
    getCredentialByUserID (loginN cr cfg now mfaTok sid req i (db, st)).1 u.id
      = some { c with failedLoginAttempts := c.failedLoginAttempts + i } ∧
    (loginN cr cfg now mfaTok sid req i (db, st)).2 = st := by
  induction i with
  | zero =>
      intro db st u c hu _hact hc _hl _hpw _hi
      exact ⟨hu, hc, rfl⟩
  | succ i ih =>
      intro db st u c hu hact hc hl hpw hi
      have hlocked : c.isLocked now = false := by
        simp [Credential.isLocked, hl]
      have hstep := login_wrong_password cr cfg now mfaTok sid req db st u c
        hu hact hc hlocked hpw
      have hnolock : ¬ (cfg.lockoutThreshold ≤ c.failedLoginAttempts + 1) := by omega
      rw [if_neg hnolock] at hstep
      rw [loginN_succ, hstep]
      dsimp only
      have hu' : getUserByEmail
          (logFailedLogin (incrementFailedAttempts db u.id) (some u.id) req.email
            req.ipAddress req.userAgent "invalid password") req.email = some u := by
        simp [hu]
      have hc' : getCredentialByUserID
          (logFailedLogin (incrementFailedAttempts db u.id) (some u.id) req.email
            req.ipAddress req.userAgent "invalid password") u.id
          = some (failIncr c) := by
        simp [getCredentialByUserID_increment, hc]
      have hres := ih _ st u (failIncr c) hu' hact hc' (by simp [failIncr, hl])
        (by simpa [failIncr] using hpw) (by simp [failIncr]; omega)
      refine ⟨hres.1, ?_, hres.2.2⟩
      rw [hres.2.1]
      simp only [failIncr, Option.some.injEq]
      congr 1
      omega

/-! ### The encoded-hash round trip -/

theorem splitOnChar_cons_self (c : Char) (l : List Char) :
    splitOnChar c (c :: l) = [] :: splitOnChar c l := by
  simp [splitOnChar]

theorem split_hashPassword (cr : Crypto) (salt : List Nat) (p : List Char) :
    splitOnChar '$' (hashPassword cr salt p)
      = [[], "argon2id".toList, "v=19".toList, "m=65536,t=1,p=4".toList,
         b64encode salt, b64encode (cr.idKey p salt 1 65536 4 32)] := by
  unfold hashPassword encodedHashHeader
  have hdr : ("$argon2id$v=19$m=65536,t=1,p=4$".toList : List Char)
      = '$' :: ("argon2id".toList ++ '$' :: ("v=19".toList ++ '$' ::
        ("m=65536,t=1,p=4".toList ++ ['$']))) := by decide
  rw [hdr]
  simp only [List.cons_append, List.append_assoc, List.singleton_append, List.nil_append]
  rw [splitOnChar_cons_self]
  rw [splitOnChar_append (by decide)]
  rw [splitOnChar_append (by decide)]
  rw [splitOnChar_append (by decide)]
  rw [splitOnChar_append (dollar_not_mem_b64encode salt)]
  rw [splitOnChar_not_mem (dollar_not_mem_b64encode _)]

/-- Verification succeeds on the hash that hashPassword just produced: the
cost parameters and the salt are recovered from the encoded string and the
digest recomputed. -/
theorem verifyPassword_hashPassword (cr : Crypto) (salt : List Nat) (p : List Char)
    (hsalt : ∀ b ∈ salt, b < 256)
    (hhash : ∀ b ∈ cr.idKey p salt 1 65536 4 32, b < 256)
    (hlen : (cr.idKey p salt 1 65536 4 32).length = 32) :
    verifyPassword cr p (hashPassword cr salt p) = true := by
  have hv : scanVersion ("v=19".toList) = some 19 := by decide
  have hm : scanParams ("m=65536,t=1,p=4".toList) = some (65536, 1, 4) := by decide
  unfold verifyPassword
  rw [split_hashPassword]
  simp only [List.length_cons, List.length_nil, List.getD_cons_succ, List.getD_cons_zero,
    hv, hm, b64_roundtrip salt hsalt, b64_roundtrip _ hhash]
  simp only [hlen, beq_self_eq_true]
  simp

/-- Verification against the hash of p with a different password p' comes
down to comparing the two digests: when they differ it fails. -/
theorem verifyPassword_hashPassword_ne (cr : Crypto) (salt : List Nat) (p p' : List Char)
    (hsalt : ∀ b ∈ salt, b < 256)
    (hhash : ∀ b ∈ cr.idKey p salt 1 65536 4 32, b < 256)
    (hlen : (cr.idKey p salt 1 65536 4 32).length = 32)
    (hne : cr.idKey p' salt 1 65536 4 32 ≠ cr.idKey p salt 1 65536 4 32) :
    verifyPassword cr p' (hashPassword cr salt p) = false := by
  have hv : scanVersion ("v=19".toList) = some 19 := by decide
  have hm : scanParams ("m=65536,t=1,p=4".toList) = some (65536, 1, 4) := by decide
  unfold verifyPassword
  rw [split_hashPassword]
  simp only [List.length_cons, List.length_nil, List.getD_cons_succ, List.getD_cons_zero,
    hv, hm, b64_roundtrip salt hsalt, b64_roundtrip _ hhash]
  simp only [hlen]
  simp [hne, Ne.symm hne]

/-! ### Backup-code, MFA-row, reset-token and fast-store projections -/

@[simp] theorem backupCodes_incrementFailedAttempts (db : AuthDB) (uid : Nat) :
    (incrementFailedAttempts db uid).backupCodes = db.backupCodes := rfl

@[simp] theorem backupCodes_lockAccount (db : AuthDB) (uid lu : Nat) :
    (lockAccount db uid lu).backupCodes = db.backupCodes := rfl

@[simp] theorem backupCodes_unlockAccountRow (db : AuthDB) (uid : Nat) :
    (unlockAccountRow db uid).backupCodes = db.backupCodes := rfl

@[simp] theorem backupCodes_resetFailedAttempts (db : AuthDB) (uid : Nat) :
    (resetFailedAttempts db uid).backupCodes = db.backupCodes := rfl

@[simp] theorem backupCodes_enableMFA (db : AuthDB) (uid now : Nat) :
    (enableMFA db uid now).backupCodes = db.backupCodes := rfl

@[simp] theorem backupCodes_disableMFARow (db : AuthDB) (uid : Nat) :
    (disableMFARow db uid).backupCodes = db.backupCodes := rfl

@[simp] theorem backupCodes_updateMFA (db : AuthDB) (m : MFATotp) :
    (updateMFA db m).backupCodes = db.backupCodes := rfl

@[simp] theorem backupCodes_createMFA (db : AuthDB) (m : MFATotp) :
    (createMFA db m).backupCodes = db.backupCodes := rfl

@[simp] theorem backupCodes_createPasswordHistory (db : AuthDB) (e : PasswordHistoryEntry) :
    (createPasswordHistory db e).backupCodes = db.backupCodes := rfl

@[simp] theorem backupCodes_updateCredential (db : AuthDB) (c : Credential) :
    (updateCredential db c).backupCodes = db.backupCodes := rfl

@[simp] theorem backupCodes_createCredential (db : AuthDB) (c : Credential) :
    (createCredential db c).backupCodes = db.backupCodes := rfl

@[simp] theorem backupCodes_createSessionRow (db : AuthDB) (s : DBSession) :
    (createSessionRow db s).backupCodes = db.backupCodes := rfl

@[simp] theorem backupCodes_revokeSessionRow (db : AuthDB) (sid r : String) (now : Nat) :
    (revokeSessionRow db sid r now).backupCodes = db.backupCodes := rfl

@[simp] theorem backupCodes_revokeAllUserSessions (db : AuthDB) (uid : Nat) (r : String)
    (now : Nat) : (revokeAllUserSessions db uid r now).backupCodes = db.backupCodes := rfl

@[simp] theorem backupCodes_updateUserLoginStats (db : AuthDB) (uid now : Nat) :
    (updateUserLoginStats db uid now).backupCodes = db.backupCodes := rfl

@[simp] theorem backupCodes_createLoginHistory (db : AuthDB) (e : LoginHistoryEntry) :
    (createLoginHistory db e).backupCodes = db.backupCodes := rfl

@[simp] theorem backupCodes_createAuditTrail (db : AuthDB) (e : AuditEvent) :
    (createAuditTrail db e).backupCodes = db.backupCodes := rfl

@[simp] theorem backupCodes_markPasswordResetTokenUsed (db : AuthDB) (tid now : Nat) :
    (markPasswordResetTokenUsed db tid now).backupCodes = db.backupCodes := rfl

@[simp] theorem backupCodes_deleteUserPasswordResetTokens (db : AuthDB) (uid : Nat) :
    (deleteUserPasswordResetTokens db uid).backupCodes = db.backupCodes := rfl

@[simp] theorem backupCodes_createPasswordResetToken (db : AuthDB) (t : ResetToken) :
    (createPasswordResetToken db t).backupCodes = db.backupCodes := rfl

@[simp] theorem backupCodes_logFailedLogin (db : AuthDB) (u : Option Nat)
    (em ip ua r : String) :
    (logFailedLogin db u em ip ua r).backupCodes = db.backupCodes := rfl

@[simp] theorem backupCodes_logAudit (db : AuthDB) (u : Option Nat)
    (a tt ti ip ua : String) :
    (logAudit db u a tt ti ip ua).backupCodes = db.backupCodes := rfl

@[simp] theorem backupCodes_logSuccessfulLogin (db : AuthDB) (u : Nat)
    (em ip ua : String) (m : Bool) :
    (logSuccessfulLogin db u em ip ua m).backupCodes = db.backupCodes := rfl

@[simp] theorem backupCodes_useBackupCode (db : AuthDB) (cid now : Nat) :
    (useBackupCode db cid now).backupCodes
      = db.backupCodes.map (fun c =>
          if c.id == cid then { c with usedAt := some now } else c) := rfl

@[simp] theorem backupCodes_createBackupCodes (db : AuthDB) (rows : List BackupCode) :
    (createBackupCodes db rows).backupCodes = db.backupCodes ++ rows := rfl

@[simp] theorem backupCodes_deleteBackupCodes (db : AuthDB) (uid : Nat) :
    (deleteBackupCodes db uid).backupCodes
      = db.backupCodes.filter (fun c => !(c.userId == uid)) := rfl

@[simp] theorem getMFAByUserID_logFailedLogin (db : AuthDB) (u : Option Nat)
    (em ip ua r : String) (uid : Nat) :
    getMFAByUserID (logFailedLogin db u em ip ua r) uid = getMFAByUserID db uid := rfl

@[simp] theorem getMFAByUserID_logAudit (db : AuthDB) (u : Option Nat)
    (a tt ti ip ua : String) (uid : Nat) :
    getMFAByUserID (logAudit db u a tt ti ip ua) uid = getMFAByUserID db uid := rfl

@[simp] theorem getMFAByUserID_useBackupCode (db : AuthDB) (cid now uid : Nat) :
    getMFAByUserID (useBackupCode db cid now) uid = getMFAByUserID db uid := rfl

@[simp] theorem getMFAByUserID_createSessionRow (db : AuthDB) (s : DBSession) (uid : Nat) :
    getMFAByUserID (createSessionRow db s) uid = getMFAByUserID db uid := rfl

@[simp] theorem getMFAByUserID_updateUserLoginStats (db : AuthDB) (u now uid : Nat) :
    getMFAByUserID (updateUserLoginStats db u now) uid = getMFAByUserID db uid := rfl

@[simp] theorem getMFAByUserID_logSuccessfulLogin (db : AuthDB) (u : Nat)
    (em ip ua : String) (m : Bool) (uid : Nat) :
    getMFAByUserID (logSuccessfulLogin db u em ip ua m) uid = getMFAByUserID db uid := rfl

theorem getMFAByUserID_enableMFA (db : AuthDB) (uid now : Nat) :
    getMFAByUserID (enableMFA db uid now) uid
      = (getMFAByUserID db uid).map
          (fun m => { m with isEnabled := true, verifiedAt := some now }) := by
  unfold getMFAByUserID enableMFA
  exact find?_map_keyed MFATotp.userId uid
    (fun m => { m with isEnabled := true, verifiedAt := some now })
    (fun m _ => rfl) db.mfas

@[simp] theorem getUserByEmail_useBackupCode (db : AuthDB) (cid now : Nat) (e : String) :
    getUserByEmail (useBackupCode db cid now) e = getUserByEmail db e := rfl

@[simp] theorem getUnusedBackupCodes_logFailedLogin (db : AuthDB) (u : Option Nat)
    (em ip ua r : String) (uid : Nat) :
    getUnusedBackupCodes (logFailedLogin db u em ip ua r) uid
      = getUnusedBackupCodes db uid := rfl

@[simp] theorem getMFAToken_fastCreateSession (st : FastStore) (s : SessionData)
    (tok : String) (now : Nat) :
    getMFAToken (fastCreateSession st s) tok now = getMFAToken st tok now := rfl

theorem getMFAToken_deleteMFAToken (st : FastStore) (tok : String) (now : Nat) :
    getMFAToken (deleteMFAToken st tok) tok now = none := by
  unfold getMFAToken deleteMFAToken
  have h : (st.mfaTokens.filter (fun p => !(p.1 == tok))).find? (fun p => p.1 == tok)
      = none := by
    rw [List.find?_eq_none]
    intro p hp
    have := List.of_mem_filter hp
    simpa using this
  rw [h]

@[simp] theorem getPasswordResetToken_markUsedSelf (db : AuthDB) (tid now : Nat)
    (s : String) :
    getPasswordResetToken (markPasswordResetTokenUsed db tid now) s
      = (db.resetTokens.map (fun t =>
          if t.id == tid then { t with usedAt := some now } else t)).find?
            (fun t => t.token == s) := rfl

@[simp] theorem resetTokens_updateCredential (db : AuthDB) (c : Credential) :
    (updateCredential db c).resetTokens = db.resetTokens := rfl

@[simp] theorem resetTokens_createCredential (db : AuthDB) (c : Credential) :
    (createCredential db c).resetTokens = db.resetTokens := rfl

@[simp] theorem resetTokens_revokeAllUserSessions (db : AuthDB) (uid : Nat) (r : String)
    (now : Nat) : (revokeAllUserSessions db uid r now).resetTokens = db.resetTokens := rfl

@[simp] theorem resetTokens_logAudit (db : AuthDB) (u : Option Nat)
    (a tt ti ip ua : String) :
    (logAudit db u a tt ti ip ua).resetTokens = db.resetTokens := rfl

@[simp] theorem resetTokens_deleteUserPasswordResetTokens (db : AuthDB) (uid : Nat) :
    (deleteUserPasswordResetTokens db uid).resetTokens
      = db.resetTokens.filter (fun t => !(t.userId == uid)) := rfl

@[simp] theorem resetTokens_markPasswordResetTokenUsed (db : AuthDB) (tid now : Nat) :
    (markPasswordResetTokenUsed db tid now).resetTokens
      = db.resetTokens.map (fun t =>
          if t.id == tid then { t with usedAt := some now } else t) := rfl

@[simp] theorem resetTokens_createPasswordResetToken (db : AuthDB) (t : ResetToken) :
    (createPasswordResetToken db t).resetTokens = db.resetTokens ++ [t] := rfl

@[simp] theorem getCredentialByUserID_markPasswordResetTokenUsed (db : AuthDB)
    (tid now uid : Nat) :
    getCredentialByUserID (markPasswordResetTokenUsed db tid now) uid
      = getCredentialByUserID db uid := rfl

@[simp] theorem getCredentialByUserID_deleteUserPasswordResetTokens (db : AuthDB)
    (u uid : Nat) :
    getCredentialByUserID (deleteUserPasswordResetTokens db u) uid
      = getCredentialByUserID db uid := rfl

@[simp] theorem getCredentialByUserID_revokeAllUserSessions (db : AuthDB) (u : Nat)
    (r : String) (now uid : Nat) :
    getCredentialByUserID (revokeAllUserSessions db u r now) uid
      = getCredentialByUserID db uid := rfl

/-! ### Step lemmas about VerifyMFA, VerifyBackupCode and ConfirmTOTP -/

/-- VerifyMFA with a missing or expired pending token. -/
theorem verifyMFA_no_token (cr : Crypto) (cfg : LocalAuthConfig) (now : Nat)
    (sid : String) (req : VerifyMFARequest) (db : AuthDB) (st : FastStore)
    (hp : getMFAToken st req.mfaToken now = none) :
    verifyMFA cr cfg now sid req db st = (.error .invalidSession, db, st) := by
  unfold verifyMFA
  rw [hp]

/-- VerifyMFA with a pending token and an invalid TOTP code: the error is
InvalidMFACode, only a failed login-history row is appended, and the fast
store (hence the pending record) is untouched. -/
theorem verifyMFA_invalid_code (cr : Crypto) (cfg : LocalAuthConfig) (now : Nat)
    (sid : String) (req : VerifyMFARequest) (db : AuthDB) (st : FastStore)
    (pending : MFAPendingData) (mfa : MFATotp) (secret : String)
    (hp : getMFAToken st req.mfaToken now = some pending)
    (hm : getMFAByUserID db pending.userId = some mfa)
    (hen : mfa.isEnabled = true)
    (hd : cr.decryptSecret mfa.secretEncrypted = some secret)
    (hv : cr.totpValidate req.code secret = false) :
    verifyMFA cr cfg now sid req db st =
      (.error .invalidMFACode,
        logFailedLogin db (some pending.userId) pending.email req.ipAddress
          req.userAgent "invalid MFA code", st) := by
  unfold verifyMFA
  rw [hp]
  dsimp only
  rw [hm]
  dsimp only
  simp only [hen, not_true_eq_false, Bool.false_eq_true, if_false, ite_false]
  rw [hd]
  dsimp only
  simp [hv]

/-- VerifyMFA with a pending token and a valid TOTP code: the pending record
is deleted from the fast store before the session is minted. -/
theorem verifyMFA_valid_code (cr : Crypto) (cfg : LocalAuthConfig) (now : Nat)
    (sid : String) (req : VerifyMFARequest) (db : AuthDB) (st : FastStore)
    (pending : MFAPendingData) (mfa : MFATotp) (secret : String) (user : User)
    (hp : getMFAToken st req.mfaToken now = some pending)
    (hm : getMFAByUserID db pending.userId = some mfa)
    (hen : mfa.isEnabled = true)
    (hd : cr.decryptSecret mfa.secretEncrypted = some secret)
    (hv : cr.totpValidate req.code secret = true)
    (hu : getUserByEmail db pending.email = some user) :
    verifyMFA cr cfg now sid req db st =
      (.ok { requiresMFA := false,
             session := some
               { sessionId := sid, userId := user.id, email := user.email,
                 ipAddress := req.ipAddress, userAgent := req.userAgent,
                 createdAt := now, expiresAt := now + cfg.sessionTTL,
                 lastActivityAt := now },
             user := some user },
        logSuccessfulLogin
          (updateUserLoginStats
            (createSessionRow db
              { id := sid, userId := user.id, ipAddress := req.ipAddress,
                userAgent := req.userAgent, expiresAt := now + cfg.sessionTTL,
                lastActivityAt := now })
            user.id now)
          user.id pending.email req.ipAddress req.userAgent true,
        fastCreateSession (deleteMFAToken st req.mfaToken)
          { sessionId := sid, userId := user.id, email := user.email,
            ipAddress := req.ipAddress, userAgent := req.userAgent,
            createdAt := now, expiresAt := now + cfg.sessionTTL,
            lastActivityAt := now }) := by
  unfold verifyMFA createSession
  rw [hp]
  dsimp only
  rw [hm]
  dsimp only
  simp only [hen, not_true_eq_false, Bool.false_eq_true, if_false, ite_false]
  rw [hd]
  dsimp only
  simp only [hv, Bool.true_eq_false, if_false, ite_false]
  rw [hu]

/-- VerifyBackupCode with a missing or expired pending token. -/
theorem verifyBackupCode_no_token (cr : Crypto) (cfg : LocalAuthConfig) (now : Nat)
    (sid mfaToken code ip ua : String) (db : AuthDB) (st : FastStore)
    (hp : getMFAToken st mfaToken now = none) :
    verifyBackupCode cr cfg now sid mfaToken code ip ua db st
      = (.error .invalidSession, db, st) := by
  unfold verifyBackupCode
  rw [hp]

/-- VerifyBackupCode when no unused code of the user matches. -/
theorem verifyBackupCode_no_match (cr : Crypto) (cfg : LocalAuthConfig) (now : Nat)
    (sid mfaToken code ip ua : String) (db : AuthDB) (st : FastStore)
    (pending : MFAPendingData)
    (hp : getMFAToken st mfaToken now = some pending)
    (hfind : (getUnusedBackupCodes db pending.userId).find? (backupCodeMatches cr code)
      = none) :
    verifyBackupCode cr cfg now sid mfaToken code ip ua db st
      = (.error .invalidMFACode,
          logFailedLogin db (some pending.userId) pending.email ip ua
            "invalid backup code", st) := by
  unfold verifyBackupCode
  rw [hp]
  dsimp only
  rw [hfind]

/-- VerifyBackupCode when the first matching unused code is bc: bc is
stamped used, the pending token deleted, and a session minted. -/
theorem verifyBackupCode_match (cr : Crypto) (cfg : LocalAuthConfig) (now : Nat)
    (sid mfaToken code ip ua : String) (db : AuthDB) (st : FastStore)
    (pending : MFAPendingData) (bc : BackupCode) (user : User)
    (hp : getMFAToken st mfaToken now = some pending)
    (hfind : (getUnusedBackupCodes db pending.userId).find? (backupCodeMatches cr code)
      = some bc)
    (hu : getUserByEmail db pending.email = some user) :
    verifyBackupCode cr cfg now sid mfaToken code ip ua db st =
      (.ok { requiresMFA := false,
             session := some
               { sessionId := sid, userId := user.id, email := user.email,
                 ipAddress := ip, userAgent := ua, createdAt := now,
                 expiresAt := now + cfg.sessionTTL, lastActivityAt := now },
             user := some user },
        logSuccessfulLogin
          (updateUserLoginStats
            (createSessionRow
              (logAudit (useBackupCode db bc.id now) (some pending.userId)
                "mfa_backup_used" "backup_code" (toString bc.id) ip ua)
              { id := sid, userId := user.id, ipAddress := ip, userAgent := ua,
                expiresAt := now + cfg.sessionTTL, lastActivityAt := now })
            user.id now)
          user.id pending.email ip ua true,
        fastCreateSession (deleteMFAToken st mfaToken)
          { sessionId := sid, userId := user.id, email := user.email,
            ipAddress := ip, userAgent := ua, createdAt := now,
            expiresAt := now + cfg.sessionTTL, lastActivityAt := now }) := by
  unfold verifyBackupCode createSession
  rw [hp]
  dsimp only
  rw [hfind]
  dsimp only
  have hu' : getUserByEmail
      (logAudit (useBackupCode db bc.id now) (some pending.userId)
        "mfa_backup_used" "backup_code" (toString bc.id) ip ua) pending.email
      = some user := by simp [hu]
  rw [hu']

/-- ConfirmTOTP with an invalid code: InvalidMFACode, state untouched. -/
theorem confirmTOTP_invalid (cr : Crypto) (now : Nat) (rnd : Nat → String × List Nat)
    (baseId uid : Nat) (code ip ua : String) (db : AuthDB)
    (mfa : MFATotp) (secret : String)
    (hm : getMFAByUserID db uid = some mfa)
    (hen : mfa.isEnabled = false)
    (hd : cr.decryptSecret mfa.secretEncrypted = some secret)
    (hv : cr.totpValidate code secret = false) :
    confirmTOTP cr now rnd baseId uid code ip ua db = (.error .invalidMFACode, db) := by
  unfold confirmTOTP
  rw [hm]
  dsimp only
  simp only [hen, Bool.false_eq_true, if_false, ite_false]
  rw [hd]
  dsimp only
  simp [hv]

/-- ConfirmTOTP with a valid code: MFA is enabled, ten fresh backup codes
are stored hashed with their own salts, and only unit is returned — the
plaintext codes produced by generateBackupCodes are discarded. -/
theorem confirmTOTP_valid (cr : Crypto) (now : Nat) (rnd : Nat → String × List Nat)
    (baseId uid : Nat) (code ip ua : String) (db : AuthDB)
    (mfa : MFATotp) (secret : String)
    (hm : getMFAByUserID db uid = some mfa)
    (hen : mfa.isEnabled = false)
    (hd : cr.decryptSecret mfa.secretEncrypted = some secret)
    (hv : cr.totpValidate code secret = true) :
    confirmTOTP cr now rnd baseId uid code ip ua db =
      (.ok (),
        logAudit
          (createBackupCodes (enableMFA db uid now)
            ((List.range 10).map (fun i =>
              { id := baseId + i, userId := uid,
                codeHash := hashBackupCodeWithSalt cr (rnd i).1.toList (rnd i).2,
                salt := b64encode (rnd i).2, usedAt := none })))
          (some uid) "mfa_enable" "user" (toString uid) ip ua) := by
  unfold confirmTOTP generateBackupCodes
  rw [hm]
  dsimp only
  simp only [hen, Bool.false_eq_true, if_false, ite_false]
  rw [hd]
  dsimp only
  simp [hv]

/-! ### The operations of the auth core, as one closed set

Used to state that backup-code consumption is never reverted by any
operation of the modelled service surface. -/

/-- One invocation of an operation of AuthService or of the password-reset
flows of RegistrationService, with its request data and the fresh random
draws made inside the call. -/
inductive ServiceOp where
  | opLogin (mfaTok sid : String) (req : LoginRequest)
  | opVerifyMFA (sid : String) (req : VerifyMFARequest)
  | opVerifyBackupCode (sid mfaToken code ip ua : String)
  | opSetupTOTP (uid : Nat) (secret : String)
  | opConfirmTOTP (rnd : Nat → String × List Nat) (baseId uid : Nat) (code ip ua : String)
  | opDisableTOTP (uid : Nat) (code ip ua : String)
  | opRegenerateBackupCodes (rnd : Nat → String × List Nat) (baseId uid : Nat) (ip ua : String)
  | opChangePassword (salt : List Nat) (uid : Nat) (currentPass newPass : List Char) (ip ua : String)
  | opSetPassword (salt : List Nat) (uid : Nat) (password : List Char)
  | opLogout (sid ip ua : String)
  | opLogoutAll (uid : Nat) (ip ua : String)
  | opRefreshSession (sid : String)
  | opUnlockAccount (uid unlockedBy : Nat) (ip ua : String)
  | opForgotPassword (tokFresh : String) (tid : Nat) (email : String)
  | opResetPassword (salt : List Nat) (tokenStr : String) (newPassword confirmPassword : List Char)

/-- Apply an operation to the combined relational and fast-store state,
discarding its response. -/
def applyOp (cr : Crypto) (cfg : LocalAuthConfig) (now : Nat) :
    ServiceOp → AuthDB × FastStore → AuthDB × FastStore
  | .opLogin mfaTok sid req, (db, st) => (login cr cfg now mfaTok sid req db st).2
  | .opVerifyMFA sid req, (db, st) => (verifyMFA cr cfg now sid req db st).2
  | .opVerifyBackupCode sid tok code ip ua, (db, st) =>
      (verifyBackupCode cr cfg now sid tok code ip ua db st).2
  | .opSetupTOTP uid secret, (db, st) => ((setupTOTP cr uid secret db).2, st)
  | .opConfirmTOTP rnd baseId uid code ip ua, (db, st) =>
      ((confirmTOTP cr now rnd baseId uid code ip ua db).2, st)
  | .opDisableTOTP uid code ip ua, (db, st) => ((disableTOTP cr uid code ip ua db).2, st)
  | .opRegenerateBackupCodes rnd baseId uid ip ua, (db, st) =>
      ((regenerateBackupCodes cr rnd baseId uid ip ua db).2, st)
  | .opChangePassword salt uid cur new ip ua, (db, st) =>
      ((changePassword cr cfg now salt uid cur new ip ua db).2, st)
  | .opSetPassword salt uid pw, (db, st) => ((setPassword cr cfg now salt uid pw db).2, st)
  | .opLogout sid ip ua, (db, st) => (logout now sid ip ua db st).2
  | .opLogoutAll uid ip ua, (db, st) => (logoutAll now uid ip ua db st).2
  | .opRefreshSession sid, (db, st) => (refreshSession cfg now sid db st).2
  | .opUnlockAccount uid ub ip ua, (db, st) => ((unlockAccount uid ub ip ua db).2, st)
  | .opForgotPassword tok tid email, (db, st) => ((forgotPassword now tok tid email db).2, st)
  | .opResetPassword salt tokStr newP confP, (db, st) =>
      (resetPassword cr cfg now salt tokStr newP confP db st).2

/-- The serial row ids an operation would assign to freshly inserted backup
codes do not collide with existing rows (ids are serial in the store). -/
def opFresh : ServiceOp → AuthDB → Prop
  | .opConfirmTOTP _ baseId _ _ _ _, db => ∀ c ∈ db.backupCodes, c.id < baseId
  | .opRegenerateBackupCodes _ baseId _ _ _, db => ∀ c ∈ db.backupCodes, c.id < baseId
  | _, _ => True

theorem login_backupCodes (cr : Crypto) (cfg : LocalAuthConfig) (now : Nat)
    (mfaTok sid : String) (req : LoginRequest) (db : AuthDB) (st : FastStore) :
    (login cr cfg now mfaTok sid req db st).2.1.backupCodes = db.backupCodes := by
  unfold login createSession
  repeat' split
  all_goals simp
  all_goals repeat' split
  all_goals simp

theorem verifyMFA_backupCodes (cr : Crypto) (cfg : LocalAuthConfig) (now : Nat)
    (sid : String) (req : VerifyMFARequest) (db : AuthDB) (st : FastStore) :
    (verifyMFA cr cfg now sid req db st).2.1.backupCodes = db.backupCodes := by
  unfold verifyMFA createSession
  repeat' split
  all_goals simp

theorem setupTOTP_backupCodes (cr : Crypto) (uid : Nat) (secret : String) (db : AuthDB) :
    (setupTOTP cr uid secret db).2.backupCodes = db.backupCodes := by
  unfold setupTOTP
  repeat' split
  all_goals simp

theorem changePassword_backupCodes (cr : Crypto) (cfg : LocalAuthConfig) (now : Nat)
    (salt : List Nat) (uid : Nat) (cur new : List Char) (ip ua : String) (db : AuthDB) :
    (changePassword cr cfg now salt uid cur new ip ua db).2.backupCodes
      = db.backupCodes := by
  unfold changePassword
  repeat' split
  all_goals simp

theorem setPassword_backupCodes (cr : Crypto) (cfg : LocalAuthConfig) (now : Nat)
    (salt : List Nat) (uid : Nat) (pw : List Char) (db : AuthDB) :
    (setPassword cr cfg now salt uid pw db).2.backupCodes = db.backupCodes := by
  unfold setPassword
  repeat' split
  all_goals simp

theorem logout_backupCodes (now : Nat) (sid ip ua : String) (db : AuthDB) (st : FastStore) :
    (logout now sid ip ua db st).2.1.backupCodes = db.backupCodes := by
  unfold logout
  repeat' split
  all_goals simp

theorem logoutAll_backupCodes (now : Nat) (uid : Nat) (ip ua : String) (db : AuthDB)
    (st : FastStore) :
    (logoutAll now uid ip ua db st).2.1.backupCodes = db.backupCodes := by
  unfold logoutAll
  simp

theorem refreshSession_backupCodes (cfg : LocalAuthConfig) (now : Nat) (sid : String)
    (db : AuthDB) (st : FastStore) :
    (refreshSession cfg now sid db st).2.1.backupCodes = db.backupCodes := by
  unfold refreshSession
  repeat' split
  all_goals simp

theorem unlockAccount_backupCodes (uid ub : Nat) (ip ua : String) (db : AuthDB) :
    (unlockAccount uid ub ip ua db).2.backupCodes = db.backupCodes := by
  unfold unlockAccount
  simp

theorem forgotPassword_backupCodes (now : Nat) (tok : String) (tid : Nat) (email : String)
    (db : AuthDB) :
    (forgotPassword now tok tid email db).2.backupCodes = db.backupCodes := by
  unfold forgotPassword
  repeat' split
  all_goals simp

theorem resetPassword_backupCodes (cr : Crypto) (cfg : LocalAuthConfig) (now : Nat)
    (salt : List Nat) (tokStr : String) (newP confP : List Char) (db : AuthDB)
    (st : FastStore) :
    (resetPassword cr cfg now salt tokStr newP confP db st).2.1.backupCodes
      = db.backupCodes := by
  unfold resetPassword logoutAll
  split
  · simp
  · split
    · simp
    · split
      · simp
      · rename_i token htok
        split
        · simp
        · rcases hE : setPassword cr cfg now salt token.userId newP
            (markPasswordResetTokenUsed db token.id now) with ⟨r, db2⟩
          have h2 : db2.backupCodes = db.backupCodes := by
            have h3 := setPassword_backupCodes cr cfg now salt token.userId newP
              (markPasswordResetTokenUsed db token.id now)
            rw [hE] at h3
            simpa using h3
          dsimp only
          rw [hE]
          rcases r with e | u
          · simpa using h2
          · cases u
            simpa using h2

theorem verifyBackupCode_backupCodes_cases (cr : Crypto) (cfg : LocalAuthConfig)
    (now : Nat) (sid mfaToken code ip ua : String) (db : AuthDB) (st : FastStore) :
    (verifyBackupCode cr cfg now sid mfaToken code ip ua db st).2.1.backupCodes
        = db.backupCodes ∨
    ∃ cid, (verifyBackupCode cr cfg now sid mfaToken code ip ua db st).2.1.backupCodes
        = db.backupCodes.map (fun c =>
            if c.id == cid then { c with usedAt := some now } else c) := by
  unfold verifyBackupCode createSession
  dsimp only
  split
  · left; simp
  · split
    · left; simp
    · rename_i mc hmc
      split
      · right; exact ⟨mc.id, by simp⟩
      · right; exact ⟨mc.id, by simp⟩

theorem confirmTOTP_backupCodes_cases (cr : Crypto) (now : Nat)
    (rnd : Nat → String × List Nat) (baseId uid : Nat) (code ip ua : String)
    (db : AuthDB) :
    (confirmTOTP cr now rnd baseId uid code ip ua db).2.backupCodes = db.backupCodes ∨
    ∃ rows, (confirmTOTP cr now rnd baseId uid code ip ua db).2.backupCodes
        = db.backupCodes ++ rows ∧ ∀ r ∈ rows, baseId ≤ r.id := by
  unfold confirmTOTP generateBackupCodes
  dsimp only
  split
  · left; simp
  · split
    · left; simp
    · split
      · left; simp
      · split
        · left; simp
        · right
          refine ⟨(List.range 10).map (fun i =>
            ({ id := baseId + i, userId := uid,
               codeHash := hashBackupCodeWithSalt cr (rnd i).1.toList (rnd i).2,
               salt := b64encode (rnd i).2, usedAt := none } : BackupCode)),
            by simp, ?_⟩
          intro r hr
          simp only [List.mem_map, List.mem_range] at hr
          obtain ⟨i, _, rfl⟩ := hr
          simp

theorem disableTOTP_backupCodes_cases (cr : Crypto) (uid : Nat) (code ip ua : String)
    (db : AuthDB) :
    (disableTOTP cr uid code ip ua db).2.backupCodes = db.backupCodes ∨
    ∃ u, (disableTOTP cr uid code ip ua db).2.backupCodes
        = db.backupCodes.filter (fun c => !(c.userId == u)) := by
  unfold disableTOTP
  dsimp only
  split
  · left; simp
  · split
    · left; simp
    · split
      · left; simp
      · split
        · left; simp
        · right; exact ⟨uid, by simp⟩

theorem regenerateBackupCodes_backupCodes_cases (cr : Crypto)
    (rnd : Nat → String × List Nat) (baseId uid : Nat) (ip ua : String) (db : AuthDB) :
    (regenerateBackupCodes cr rnd baseId uid ip ua db).2.backupCodes = db.backupCodes ∨
    ∃ u rows, (regenerateBackupCodes cr rnd baseId uid ip ua db).2.backupCodes
        = db.backupCodes.filter (fun c => !(c.userId == u)) ++ rows ∧
        ∀ r ∈ rows, baseId ≤ r.id := by
  unfold regenerateBackupCodes generateBackupCodes
  dsimp only
  split
  · left; simp
  · split
    · left; simp
    · right
      refine ⟨uid, (List.range 10).map (fun i =>
        ({ id := baseId + i, userId := uid,
           codeHash := hashBackupCodeWithSalt cr (rnd i).1.toList (rnd i).2,
           salt := b64encode (rnd i).2, usedAt := none } : BackupCode)),
        by simp, ?_⟩
      intro r hr
      simp only [List.mem_map, List.mem_range] at hr
      obtain ⟨i, _, rfl⟩ := hr
      simp

theorem backupCode_id_inj {l : List BackupCode} (h : (l.map BackupCode.id).Nodup)
    {c c' : BackupCode} (hc : c ∈ l) (hc' : c' ∈ l) (hid : c'.id = c.id) : c' = c :=
  List.inj_on_of_nodup_map h hc' hc hid

/-- Used backup codes stay used across every modelled operation: no
operation of the service surface reverts a used-at marker, and freshly
created rows never reuse the id of an existing row. -/
theorem backupCode_use_terminal (cr : Crypto) (cfg : LocalAuthConfig) (now : Nat)
    (op : ServiceOp) (db : AuthDB) (st : FastStore) (t : Nat) (c : BackupCode)
    (hids : (db.backupCodes.map BackupCode.id).Nodup)
    (hfresh : opFresh op db)
    (hc : c ∈ db.backupCodes) (hused : c.usedAt = some t) :
    ∀ c' ∈ (applyOp cr cfg now op (db, st)).1.backupCodes,
      c'.id = c.id → c'.usedAt ≠ none := by
  have unchanged : ∀ c' ∈ db.backupCodes, c'.id = c.id → c'.usedAt ≠ none := by
    intro c' hc' hid
    rw [backupCode_id_inj hids hc hc' hid, hused]
    simp
  have mapped : ∀ (cid : Nat), ∀ c' ∈ db.backupCodes.map (fun x =>
      if x.id == cid then { x with usedAt := some now } else x),
      c'.id = c.id → c'.usedAt ≠ none := by
    intro cid c' hc' hid
    obtain ⟨c0, hc0, rfl⟩ := List.mem_map.mp hc'
    by_cases h0 : (c0.id == cid) = true
    · simp [h0]
    · simp only [h0, if_false, ite_false] at hid ⊢
      simp only [Bool.not_eq_true] at h0
      exact unchanged c0 hc0 hid
  cases op with
  | opLogin mfaTok sid req =>
      intro c' hc' hid
      simp only [applyOp, login_backupCodes] at hc'
      exact unchanged c' hc' hid
  | opVerifyMFA sid req =>
      intro c' hc' hid
      simp only [applyOp, verifyMFA_backupCodes] at hc'
      exact unchanged c' hc' hid
  | opVerifyBackupCode sid tok code ip ua =>
      intro c' hc' hid
      simp only [applyOp] at hc'
      rcases verifyBackupCode_backupCodes_cases cr cfg now sid tok code ip ua db st with
        h | ⟨cid, h⟩
      · rw [h] at hc'; exact unchanged c' hc' hid
      · rw [h] at hc'; exact mapped cid c' hc' hid
  | opSetupTOTP uid secret =>
      intro c' hc' hid
      simp only [applyOp, setupTOTP_backupCodes] at hc'
      exact unchanged c' hc' hid
  | opConfirmTOTP rnd baseId uid code ip ua =>
      intro c' hc' hid
      simp only [applyOp] at hc'
      rcases confirmTOTP_backupCodes_cases cr now rnd baseId uid code ip ua db with
        h | ⟨rows, h, hrows⟩
      · rw [h] at hc'; exact unchanged c' hc' hid
      · rw [h] at hc'
        rcases List.mem_append.mp hc' with h1 | h1
        · exact unchanged c' h1 hid
        · exfalso
          have hlt : c.id < baseId := hfresh c hc
          have hge : baseId ≤ c'.id := hrows c' h1
          omega
  | opDisableTOTP uid code ip ua =>
      intro c' hc' hid
      simp only [applyOp] at hc'
      rcases disableTOTP_backupCodes_cases cr uid code ip ua db with h | ⟨u, h⟩
      · rw [h] at hc'; exact unchanged c' hc' hid
      · rw [h] at hc'
        exact unchanged c' (List.mem_of_mem_filter hc') hid
  | opRegenerateBackupCodes rnd baseId uid ip ua =>
      intro c' hc' hid
      simp only [applyOp] at hc'
      rcases regenerateBackupCodes_backupCodes_cases cr rnd baseId uid ip ua db with
        h | ⟨u, rows, h, hrows⟩
      · rw [h] at hc'; exact unchanged c' hc' hid
      · rw [h] at hc'
        rcases List.mem_append.mp hc' with h1 | h1
        · exact unchanged c' (List.mem_of_mem_filter h1) hid
        · exfalso
          have hlt : c.id < baseId := hfresh c hc
          have hge : baseId ≤ c'.id := hrows c' h1
          omega
  | opChangePassword salt uid cur new ip ua =>
      intro c' hc' hid
      simp only [applyOp, changePassword_backupCodes] at hc'
      exact unchanged c' hc' hid
  | opSetPassword salt uid pw =>
      intro c' hc' hid
      simp only [applyOp, setPassword_backupCodes] at hc'
      exact unchanged c' hc' hid
  | opLogout sid ip ua =>
      intro c' hc' hid
      simp only [applyOp, logout_backupCodes] at hc'
      exact unchanged c' hc' hid
  | opLogoutAll uid ip ua =>
      intro c' hc' hid
      simp only [applyOp, logoutAll_backupCodes] at hc'
      exact unchanged c' hc' hid
  | opRefreshSession sid =>
      intro c' hc' hid
      simp only [applyOp, refreshSession_backupCodes] at hc'
      exact unchanged c' hc' hid
  | opUnlockAccount uid ub ip ua =>
      intro c' hc' hid
      simp only [applyOp, unlockAccount_backupCodes] at hc'
      exact unchanged c' hc' hid
  | opForgotPassword tok tid email =>
      intro c' hc' hid
      simp only [applyOp, forgotPassword_backupCodes] at hc'
      exact unchanged c' hc' hid
  | opResetPassword salt tokStr newP confP =>
      intro c' hc' hid
      simp only [applyOp, resetPassword_backupCodes] at hc'
      exact unchanged c' hc' hid

/-! ### Credential write-back and password-history lemmas -/

theorem getCredentialByUserID_updateCredential (db : AuthDB) (cred : Credential) :
    getCredentialByUserID (updateCredential db cred) cred.userId
      = (getCredentialByUserID db cred.userId).map (fun _ => cred) := by
  unfold getCredentialByUserID updateCredential
  exact find?_map_keyed Credential.userId cred.userId (fun _ => cred)
    (fun a ha => ha.symm) db.credentials

theorem getCredentialByUserID_createCredential (db : AuthDB) (cred : Credential)
    (h : getCredentialByUserID db cred.userId = none) :
    getCredentialByUserID (createCredential db cred) cred.userId = some cred := by
  unfold getCredentialByUserID createCredential
  unfold getCredentialByUserID at h
  simp [List.find?_append, h]

@[simp] theorem passwordHistory_updateCredential (db : AuthDB) (c : Credential) :
    (updateCredential db c).passwordHistory = db.passwordHistory := rfl

@[simp] theorem passwordHistory_createCredential (db : AuthDB) (c : Credential) :
    (createCredential db c).passwordHistory = db.passwordHistory := rfl

@[simp] theorem passwordHistory_logAudit (db : AuthDB) (u : Option Nat)
    (a tt ti ip ua : String) :
    (logAudit db u a tt ti ip ua).passwordHistory = db.passwordHistory := rfl

@[simp] theorem passwordHistory_createPasswordHistory (db : AuthDB)
    (e : PasswordHistoryEntry) :
    (createPasswordHistory db e).passwordHistory = db.passwordHistory ++ [e] := rfl

/-- ChangePassword with the current password verified, an acceptable new
password and no history hit: the previous hash is appended to the password
history before the credential row is overwritten. -/
theorem changePassword_success (cr : Crypto) (cfg : LocalAuthConfig) (now : Nat)
    (salt : List Nat) (uid : Nat) (cur new : List Char) (ip ua : String)
    (db : AuthDB) (cred : Credential)
    (hc : getCredentialByUserID db uid = some cred)
    (hver : verifyPassword cr cur cred.passwordHash = true)
    (hlen : ¬ new.length < cfg.passwordMinLength)
    (hhist : (getPasswordHistory db uid cfg.passwordHistoryCount).any
      (fun h => verifyPassword cr new h.passwordHash) = false) :
    changePassword cr cfg now salt uid cur new ip ua db =
      (.ok (),
        logAudit
          (updateCredential
            (createPasswordHistory db { userId := uid, passwordHash := cred.passwordHash })
            { cred with passwordHash := hashPassword cr salt new,
                        passwordChangedAt := some now, mustChangePassword := false })
          (some uid) "password_change" "user" (toString uid) ip ua) := by
  unfold changePassword
  rw [hc]
  dsimp only
  simp only [hver, not_true_eq_false, Bool.true_eq_false, if_false, ite_false,
    hlen, hhist, Bool.false_eq_true]

/-- SetPassword over an existing credential: the row is overwritten in
place; nothing is appended to the password history. -/
theorem setPassword_existing (cr : Crypto) (cfg : LocalAuthConfig) (now : Nat)
    (salt : List Nat) (uid : Nat) (pw : List Char) (db : AuthDB) (existing : Credential)
    (hlen : ¬ pw.length < cfg.passwordMinLength)
    (hex : getCredentialByUserID db uid = some existing) :
    setPassword cr cfg now salt uid pw db =
      (.ok (), updateCredential db
        { existing with passwordHash := hashPassword cr salt pw,
                        passwordChangedAt := some now, mustChangePassword := true }) := by
  unfold setPassword
  rw [if_neg hlen]
  dsimp only
  rw [hex]

/-- SetPassword with no credential row yet: a fresh row is created. -/
theorem setPassword_new (cr : Crypto) (cfg : LocalAuthConfig) (now : Nat)
    (salt : List Nat) (uid : Nat) (pw : List Char) (db : AuthDB)
    (hlen : ¬ pw.length < cfg.passwordMinLength)
    (hnone : getCredentialByUserID db uid = none) :
    setPassword cr cfg now salt uid pw db =
      (.ok (), createCredential db
        { userId := uid, passwordHash := hashPassword cr salt pw,
          passwordChangedAt := some now, failedLoginAttempts := 0,
          lockedUntil := none, mustChangePassword := true }) := by
  unfold setPassword
  rw [if_neg hlen]
  dsimp only
  rw [hnone]

/-- The password history is untouched by SetPassword on every path. -/
theorem setPassword_passwordHistory (cr : Crypto) (cfg : LocalAuthConfig) (now : Nat)
    (salt : List Nat) (uid : Nat) (pw : List Char) (db : AuthDB) :
    (setPassword cr cfg now salt uid pw db).2.passwordHistory = db.passwordHistory := by
  unfold setPassword
  repeat' split
  all_goals simp

/-! ### Reset-token lemmas -/

theorem getPasswordResetToken_after_delete (db : AuthDB) (uid : Nat) (s : String)
    (h : ∀ t ∈ db.resetTokens, t.token = s → t.userId = uid) :
    getPasswordResetToken (deleteUserPasswordResetTokens db uid) s = none := by
  unfold getPasswordResetToken deleteUserPasswordResetTokens
  rw [List.find?_eq_none]
  intro t ht
  have hmem := List.mem_of_mem_filter ht
  have hfilt := List.of_mem_filter ht
  intro htok
  have huid : t.userId = uid := h t hmem (by simpa using htok)
  simp [huid] at hfilt

/-! ### Remaining login branch lemmas -/

/-- The credential row after a wrong-password attempt is exactly the
composition of the increment step and the check-and-lock step. -/
theorem login_wrong_password_cred (cr : Crypto) (cfg : LocalAuthConfig) (now : Nat)
    (mfaTok sid : String) (req : LoginRequest) (db : AuthDB) (st : FastStore)
    (u : User) (c : Credential)
    (hu : getUserByEmail db req.email = some u)
    (hact : u.status = userStatusActive)
    (hc : getCredentialByUserID db u.id = some c)
    (hlocked : c.isLocked now = false)
    (hpw : verifyPassword cr req.password c.passwordHash = false) :
    getCredentialByUserID (login cr cfg now mfaTok sid req db st).2.1 u.id
      = some (failCheck cfg now (failIncr c)) := by
  rw [login_wrong_password cr cfg now mfaTok sid req db st u c hu hact hc hlocked hpw]
  dsimp only
  unfold failCheck failIncr
  by_cases h : cfg.lockoutThreshold ≤ c.failedLoginAttempts + 1
  · rw [if_pos h]
    rw [if_pos (show cfg.lockoutThreshold ≤
      ({ c with failedLoginAttempts := c.failedLoginAttempts + 1 } :
        Credential).failedLoginAttempts from h)]
    simp only [getCredentialByUserID_logFailedLogin, getCredentialByUserID_logAudit,
      getCredentialByUserID_lockAccount, getCredentialByUserID_increment, hc,
      Option.map_some', failIncr]
  · rw [if_neg h]
    rw [if_neg (show ¬ cfg.lockoutThreshold ≤
      ({ c with failedLoginAttempts := c.failedLoginAttempts + 1 } :
        Credential).failedLoginAttempts from h)]
    simp only [getCredentialByUserID_logFailedLogin,
      getCredentialByUserID_increment, hc, Option.map_some', failIncr]

/-- Login with an email that matches no user row. -/
theorem login_unknown_email (cr : Crypto) (cfg : LocalAuthConfig) (now : Nat)
    (mfaTok sid : String) (req : LoginRequest) (db : AuthDB) (st : FastStore)
    (hu : getUserByEmail db req.email = none) :
    login cr cfg now mfaTok sid req db st =
      (.error .invalidCredentials,
        logFailedLogin db none req.email req.ipAddress req.userAgent "user not found",
        st) := by
  unfold login
  rw [hu]

/-- Login against an active user that has no credential row. -/
theorem login_no_credentials (cr : Crypto) (cfg : LocalAuthConfig) (now : Nat)
    (mfaTok sid : String) (req : LoginRequest) (db : AuthDB) (st : FastStore)
    (u : User)
    (hu : getUserByEmail db req.email = some u)
    (hact : u.status = userStatusActive)
    (hnc : getCredentialByUserID db u.id = none) :
    login cr cfg now mfaTok sid req db st =
      (.error .credentialsNotFound,
        logFailedLogin db (some u.id) req.email req.ipAddress req.userAgent
          "no credentials", st) := by
  unfold login
  rw [hu]
  simp only [hact, ne_eq, not_true_eq_false, if_false, ite_false]
  rw [hnc]

/-! ### Concrete fixtures used by the witnesses -/

/-- A small executable stand-in for the external crypto primitives: the KDF
mixes the password and salt into keyLen bytes, a TOTP code is valid exactly
when it equals the secret, and the secret box is the identity. -/
def cryptoW : Crypto where
  idKey := fun pw salt _t _m _th kl =>
    (List.range kl).map (fun i =>
      (pw.foldl (fun acc ch => acc * 31 + ch.toNat) 7
        + salt.foldl (fun acc b => acc * 13 + b) 3 + i) % 256)
  totpValidate := fun code secret => code == secret
  encryptSecret := fun s => s
  decryptSecret := fun s => some s

/-- A concrete configuration for the witnesses. -/
def cfgW : LocalAuthConfig where
  passwordMinLength := 8
  lockoutThreshold := 3
  lockoutDuration := 900
  mfaTokenTTL := 300
  sessionTTL := 3600
  passwordHistoryCount := 5

/-! ### Claim theorems -/

/-- C4: for every password p accepted by SetPassword, verifyPassword of p
against the self-describing encoded hash that hashPassword produced for p is
true (the cost parameters and salt are re-derived from the encoded string),
and for any p' whose argon2id digest under the recovered parameters differs
from that of p, verifyPassword is false.  The digest hypotheses record the
contract of argon2.IDKey: keyLen output bytes, and no digest collision
between the two distinct passwords. -/
theorem C4_hash_roundtrip (cr : Crypto) (salt : List Nat) (p : List Char)
    (hsalt : ∀ b ∈ salt, b < 256)
    (hhash : ∀ b ∈ cr.idKey p salt 1 65536 4 32, b < 256)
    (hlen : (cr.idKey p salt 1 65536 4 32).length = 32) :
    verifyPassword cr p (hashPassword cr salt p) = true ∧
    ∀ p' : List Char, p' ≠ p →
      cr.idKey p' salt 1 65536 4 32 ≠ cr.idKey p salt 1 65536 4 32 →
      verifyPassword cr p' (hashPassword cr salt p) = false :=
  ⟨verifyPassword_hashPassword cr salt p hsalt hhash hlen,
   fun p' _ hne => verifyPassword_hashPassword_ne cr salt p p' hsalt hhash hlen hne⟩

theorem C4_hash_roundtrip_witness :
    verifyPassword cryptoW "password1".toList
      (hashPassword cryptoW (List.range 16) "password1".toList) = true ∧
    verifyPassword cryptoW "password2".toList
      (hashPassword cryptoW (List.range 16) "password1".toList) = false := by
  have h := C4_hash_roundtrip cryptoW (List.range 16) "password1".toList
    (by decide) (by decide) (by decide)
  exact ⟨h.1, h.2 "password2".toList (by decide) (by decide)⟩

/-- C10: an active user that exists but has no credential row gets the
distinct CredentialsNotFound error from Login, while an unknown email and a
wrong password both yield InvalidCredentials, and the two error values are
observably different. -/
theorem C10_no_credentials_error (cr : Crypto) (cfg : LocalAuthConfig) (now : Nat)
    (mfaTok sid : String) (req : LoginRequest) (db : AuthDB) (st : FastStore) (u : User)
    (hu : getUserByEmail db req.email = some u)
    (hact : u.status = userStatusActive)
    (hnc : getCredentialByUserID db u.id = none) :
    (login cr cfg now mfaTok sid req db st).1 = .error .credentialsNotFound ∧
    AuthErr.credentialsNotFound ≠ AuthErr.invalidCredentials ∧
    (∀ (req' : LoginRequest) (db' : AuthDB) (st' : FastStore),
      getUserByEmail db' req'.email = none →
      (login cr cfg now mfaTok sid req' db' st').1 = .error .invalidCredentials) ∧
    (∀ (req' : LoginRequest) (db' : AuthDB) (st' : FastStore) (u' : User)
      (c' : Credential),
      getUserByEmail db' req'.email = some u' →
      u'.status = userStatusActive →
      getCredentialByUserID db' u'.id = some c' →
      c'.isLocked now = false →
      verifyPassword cr req'.password c'.passwordHash = false →
      (login cr cfg now mfaTok sid req' db' st').1 = .error .invalidCredentials) := by
  refine ⟨?_, by simp, ?_, ?_⟩
  · rw [login_no_credentials cr cfg now mfaTok sid req db st u hu hact hnc]
  · intro req' db' st' h
    rw [login_unknown_email cr cfg now mfaTok sid req' db' st' h]
  · intro req' db' st' u' c' hu' hact' hc' hl' hpw'
    rw [login_wrong_password cr cfg now mfaTok sid req' db' st' u' c' hu' hact' hc'
      hl' hpw']

/-- Fixture: an active user with no credential row. -/
def userW1 : User := { id := 1, email := "alice@example.com", status := "active" }

/-- Fixture: an active user with a credential row. -/
def userW2 : User := { id := 2, email := "bob@example.com", status := "active" }

/-- Fixture: the credential of userW2 under the witness crypto. -/
def credW2 : Credential :=
  { userId := 2, passwordHash := hashPassword cryptoW (List.range 16) "correct horse".toList }

/-- Fixture: the two users above, with a credential only for the second. -/
def dbW10 : AuthDB := { users := [userW1, userW2], credentials := [credW2] }

theorem C10_no_credentials_error_witness :
    (login cryptoW cfgW 1000 "tok" "sid"
      { email := "alice@example.com", password := "whatever1".toList,
        ipAddress := "ip", userAgent := "ua" } dbW10 {}).1
      = .error .credentialsNotFound ∧
    (login cryptoW cfgW 1000 "tok" "sid"
      { email := "carol@example.com", password := "whatever1".toList,
        ipAddress := "ip", userAgent := "ua" } dbW10 {}).1
      = .error .invalidCredentials ∧
    (login cryptoW cfgW 1000 "tok" "sid"
      { email := "bob@example.com", password := "wrong pony".toList,
        ipAddress := "ip", userAgent := "ua" } dbW10 {}).1
      = .error .invalidCredentials ∧
    AuthErr.credentialsNotFound ≠ AuthErr.invalidCredentials := by
  have h := C10_no_credentials_error cryptoW cfgW 1000 "tok" "sid"
    { email := "alice@example.com", password := "whatever1".toList,
      ipAddress := "ip", userAgent := "ua" } dbW10 {} userW1
    (by decide) (by decide) (by decide)
  refine ⟨h.1, ?_, ?_, h.2.1⟩
  · exact h.2.2.1 _ dbW10 {} (by decide)
  · exact h.2.2.2 _ dbW10 {} userW2 credW2 (by decide) (by decide) (by decide)
      (by decide) (by decide)

/-- C1: starting from a clean credential, threshold-1 consecutive failed
Login attempts leave the counter at threshold-1 with no lock, the
threshold-th consecutive failure sets lock-until to now plus the lockout
duration, and one successful password verification (in any state where the
account is not locked) resets the counter to 0 regardless of the MFA
branch taken afterwards. -/
theorem C1_lockout_exact_threshold (cr : Crypto) (cfg : LocalAuthConfig) (now : Nat)
    (mfaTok sid : String) (req : LoginRequest) (db : AuthDB) (st : FastStore)
    (u : User) (c : Credential)
    (hu : getUserByEmail db req.email = some u)
    (hact : u.status = userStatusActive)
    (hc : getCredentialByUserID db u.id = some c)
    (hcnt : c.failedLoginAttempts = 0)
    (hlock : c.lockedUntil = none)
    (hpw : verifyPassword cr req.password c.passwordHash = false)
    (hth : 1 ≤ cfg.lockoutThreshold) :
    (∃ c1, getCredentialByUserID
        (loginN cr cfg now mfaTok sid req (cfg.lockoutThreshold - 1) (db, st)).1 u.id
        = some c1 ∧
      c1.failedLoginAttempts = cfg.lockoutThreshold - 1 ∧ c1.lockedUntil = none) ∧
    (∃ c2, getCredentialByUserID
        (loginN cr cfg now mfaTok sid req cfg.lockoutThreshold (db, st)).1 u.id
        = some c2 ∧
      c2.lockedUntil = some (now + cfg.lockoutDuration)) ∧
    (∀ (req' : LoginRequest) (db' : AuthDB) (st' : FastStore) (c' : Credential),
      getUserByEmail db' req'.email = some u →
      getCredentialByUserID db' u.id = some c' →
      c'.isLocked now = false →
      verifyPassword cr req'.password c'.passwordHash = true →
      ∃ c3, getCredentialByUserID
          (login cr cfg now mfaTok sid req' db' st').2.1 u.id = some c3 ∧
        c3.failedLoginAttempts = 0) := by
  have hinv := loginN_fail_inv cr cfg now mfaTok sid req (cfg.lockoutThreshold - 1)
    db st u c hu hact hc hlock hpw (by omega)
  refine ⟨?_, ?_, ?_⟩
  · refine ⟨_, hinv.2.1, ?_, ?_⟩
    · simp [hcnt]
    · simpa using hlock
  · have hsplit : cfg.lockoutThreshold = (cfg.lockoutThreshold - 1) + 1 := by omega
    rw [hsplit, loginN_add]
    rcases hS : loginN cr cfg now mfaTok sid req (cfg.lockoutThreshold - 1) (db, st)
      with ⟨db1, st1⟩
    rw [hS] at hinv
    have h1 := loginN_succ cr cfg now mfaTok sid req 0 db1 st1
    rw [h1]
    show ∃ c2, getCredentialByUserID
        (login cr cfg now mfaTok sid req db1 st1).2.1 u.id = some c2 ∧
      c2.lockedUntil = some (now + cfg.lockoutDuration)
    have hcred := login_wrong_password_cred cr cfg now mfaTok sid req db1 st1 u
      { c with failedLoginAttempts := c.failedLoginAttempts + (cfg.lockoutThreshold - 1) }
      hinv.1 hact hinv.2.1 (by simp [Credential.isLocked, hlock]) hpw
    refine ⟨_, hcred, ?_⟩
    simp only [failCheck, failIncr]
    rw [if_pos (show cfg.lockoutThreshold ≤ c.failedLoginAttempts
      + (cfg.lockoutThreshold - 1) + 1 by omega)]
  · intro req' db' st' c' hu' hc' hl' hpw'
    exact ⟨_, login_correct_password_resets cr cfg now mfaTok sid req' db' st' u c'
      hu' hact hc' hl' hpw', rfl⟩

/-- Fixture: a login request for userW2 with a wrong password. -/
def reqWrongW : LoginRequest :=
  { email := "bob@example.com", password := "wrong pony".toList,
    ipAddress := "ip", userAgent := "ua" }

/-- Fixture: a login request for userW2 with the correct password. -/
def reqGoodW : LoginRequest :=
  { email := "bob@example.com", password := "correct horse".toList,
    ipAddress := "ip", userAgent := "ua" }

theorem C1_lockout_exact_threshold_witness :
    (∃ c1, getCredentialByUserID
        (loginN cryptoW cfgW 1000 "tok" "sid" reqWrongW
          (cfgW.lockoutThreshold - 1) (dbW10, {})).1 userW2.id = some c1 ∧
      c1.failedLoginAttempts = cfgW.lockoutThreshold - 1 ∧ c1.lockedUntil = none) ∧
    (∃ c2, getCredentialByUserID
        (loginN cryptoW cfgW 1000 "tok" "sid" reqWrongW
          cfgW.lockoutThreshold (dbW10, {})).1 userW2.id = some c2 ∧
      c2.lockedUntil = some (1000 + cfgW.lockoutDuration)) ∧
    (∃ c3, getCredentialByUserID
        (login cryptoW cfgW 1000 "tok" "sid" reqGoodW dbW10 {}).2.1 userW2.id
        = some c3 ∧ c3.failedLoginAttempts = 0) := by
  have h := C1_lockout_exact_threshold cryptoW cfgW 1000 "tok" "sid" reqWrongW
    dbW10 {} userW2 credW2 (by decide) (by decide) (by decide) (by decide)
    (by decide) (by decide) (by decide)
  exact ⟨h.1, h.2.1, h.2.2 reqGoodW dbW10 {} credW2 (by decide) (by decide)
    (by decide) (by decide)⟩

/-- C7: with a pending MFA login token, a failed TOTP verification returns
InvalidMFACode and leaves the pending record in the fast store (a retry
within its TTL still resolves it), while a successful verification deletes
the pending record before the session is issued, so that a second VerifyMFA
call with the same token fails with InvalidSession at any later time. -/
theorem C7_pending_token_single_use (cr : Crypto) (cfg : LocalAuthConfig) (now : Nat)
    (sid : String) (req : VerifyMFARequest) (db : AuthDB) (st : FastStore)
    (pending : MFAPendingData) (mfa : MFATotp) (secret : String)
    (hp : getMFAToken st req.mfaToken now = some pending)
    (hm : getMFAByUserID db pending.userId = some mfa)
    (hen : mfa.isEnabled = true)
    (hd : cr.decryptSecret mfa.secretEncrypted = some secret) :
    (cr.totpValidate req.code secret = false →
      (verifyMFA cr cfg now sid req db st).1 = .error .invalidMFACode ∧
      (verifyMFA cr cfg now sid req db st).2.2 = st ∧
      getMFAToken (verifyMFA cr cfg now sid req db st).2.2 req.mfaToken now
        = some pending) ∧
    (∀ user : User, cr.totpValidate req.code secret = true →
      getUserByEmail db pending.email = some user →
      getMFAToken (verifyMFA cr cfg now sid req db st).2.2 req.mfaToken now = none ∧
      (∃ s, (verifyMFA cr cfg now sid req db st).1 = .ok s ∧ s.session ≠ none) ∧
      (∀ (now' : Nat) (sid' : String) (req2 : VerifyMFARequest),
        req2.mfaToken = req.mfaToken →
        (verifyMFA cr cfg now' sid' req2
          (verifyMFA cr cfg now sid req db st).2.1
          (verifyMFA cr cfg now sid req db st).2.2).1 = .error .invalidSession)) := by
  constructor
  · intro hv
    rw [verifyMFA_invalid_code cr cfg now sid req db st pending mfa secret
      hp hm hen hd hv]
    exact ⟨rfl, rfl, hp⟩
  · intro user hv hu
    rw [verifyMFA_valid_code cr cfg now sid req db st pending mfa secret user
      hp hm hen hd hv hu]
    refine ⟨?_, ⟨_, rfl, by simp⟩, ?_⟩
    · exact getMFAToken_deleteMFAToken st req.mfaToken now
    · intro now' sid' req2 hreq
      rw [verifyMFA_no_token]
      rw [hreq]
      exact getMFAToken_deleteMFAToken st req.mfaToken now'

/-- Fixture: an enabled MFA row for userW2 under the identity secret box. -/
def mfaW : MFATotp := { userId := 2, secretEncrypted := "SECRET", isEnabled := true }

/-- Fixture: the relational state with userW2's MFA enabled. -/
def dbW7 : AuthDB := { users := [userW1, userW2], credentials := [credW2], mfas := [mfaW] }

/-- Fixture: the pending MFA record minted by a password-verified login. -/
def pendW : MFAPendingData :=
  { userId := 2, email := "bob@example.com", ipAddress := "ip",
    userAgent := "ua", expiresAt := 2000 }

/-- Fixture: the fast store holding the pending MFA token. -/
def stW7 : FastStore := { mfaTokens := [("mfa-tok", pendW)] }

/-- Fixture: a VerifyMFA request with a wrong code. -/
def reqMFABadW : VerifyMFARequest :=
  { mfaToken := "mfa-tok", code := "WRONG", ipAddress := "ip", userAgent := "ua" }

/-- Fixture: a VerifyMFA request with the valid code. -/
def reqMFAGoodW : VerifyMFARequest :=
  { mfaToken := "mfa-tok", code := "SECRET", ipAddress := "ip", userAgent := "ua" }

theorem C7_pending_token_single_use_witness :
    (verifyMFA cryptoW cfgW 1000 "sid" reqMFABadW dbW7 stW7).1
      = .error .invalidMFACode ∧
    getMFAToken (verifyMFA cryptoW cfgW 1000 "sid" reqMFABadW dbW7 stW7).2.2
      reqMFABadW.mfaToken 1000 = some pendW ∧
    getMFAToken (verifyMFA cryptoW cfgW 1000 "sid" reqMFAGoodW dbW7 stW7).2.2
      reqMFAGoodW.mfaToken 1000 = none ∧
    (verifyMFA cryptoW cfgW 1500 "sid2" reqMFAGoodW
      (verifyMFA cryptoW cfgW 1000 "sid" reqMFAGoodW dbW7 stW7).2.1
      (verifyMFA cryptoW cfgW 1000 "sid" reqMFAGoodW dbW7 stW7).2.2).1
      = .error .invalidSession := by
  have h1 := C7_pending_token_single_use cryptoW cfgW 1000 "sid" reqMFABadW dbW7 stW7
    pendW mfaW "SECRET" (by decide) (by decide) (by decide) (by decide)
  have h2 := C7_pending_token_single_use cryptoW cfgW 1000 "sid" reqMFAGoodW dbW7 stW7
    pendW mfaW "SECRET" (by decide) (by decide) (by decide) (by decide)
  have hbad := h1.1 (by decide)
  have hgood := h2.2 userW2 (by decide) (by decide)
  exact ⟨hbad.1, hbad.2.2, hgood.1, hgood.2.2 1500 "sid2" reqMFAGoodW rfl⟩

/-- C8: ForgotPassword returns the same success result whether or not the
email matches an account; the unknown-email run leaves the state completely
unchanged, while the known-email run deletes the identity's prior reset
tokens and appends one fresh ResetToken row with a 1 hour expiry. -/
theorem C8_forgot_password_anti_enumeration (now : Nat) (tokFresh : String) (tid : Nat)
    (eUnknown eKnown : String) (db : AuthDB) (u : User)
    (hn : getUserByEmail db eUnknown = none)
    (hk : getUserByEmail db eKnown = some u) :
    forgotPassword now tokFresh tid eUnknown db = (.ok (), db) ∧
    (forgotPassword now tokFresh tid eKnown db).1 = .ok () ∧
    (forgotPassword now tokFresh tid eUnknown db).1
      = (forgotPassword now tokFresh tid eKnown db).1 ∧
    (forgotPassword now tokFresh tid eKnown db).2.resetTokens
      = db.resetTokens.filter (fun t => !(t.userId == u.id))
        ++ [{ id := tid, userId := u.id, token := tokFresh,
              expiresAt := now + 3600, usedAt := none }] := by
  have h1 : forgotPassword now tokFresh tid eUnknown db = (.ok (), db) := by
    unfold forgotPassword
    rw [hn]
  have h2 : forgotPassword now tokFresh tid eKnown db
      = (.ok (), createPasswordResetToken (deleteUserPasswordResetTokens db u.id)
          { id := tid, userId := u.id, token := tokFresh,
            expiresAt := now + 3600, usedAt := none }) := by
    unfold forgotPassword
    rw [hk]
  refine ⟨h1, ?_, ?_, ?_⟩
  · rw [h2]
  · rw [h1, h2]
  · rw [h2]
    simp

theorem C8_forgot_password_anti_enumeration_witness :
    forgotPassword 1000 "fresh-token" 41 "carol@example.com" dbW10 = (.ok (), dbW10) ∧
    (forgotPassword 1000 "fresh-token" 41 "bob@example.com" dbW10).1 = .ok () ∧
    (forgotPassword 1000 "fresh-token" 41 "carol@example.com" dbW10).1
      = (forgotPassword 1000 "fresh-token" 41 "bob@example.com" dbW10).1 ∧
    (forgotPassword 1000 "fresh-token" 41 "bob@example.com" dbW10).2.resetTokens
      = dbW10.resetTokens.filter (fun t => !(t.userId == userW2.id))
        ++ [{ id := 41, userId := userW2.id, token := "fresh-token",
              expiresAt := 1000 + 3600, usedAt := none }] :=
  C8_forgot_password_anti_enumeration 1000 "fresh-token" 41 "carol@example.com"
    "bob@example.com" dbW10 userW2 (by decide) (by decide)

/-- C3 counterexample: at a concrete state with an existing credential,
SetPassword overwrites the hash but appends nothing to the password history,
so the previous hash is not pushed into PasswordHistory. -/
theorem C3_counterexample_setPassword_no_history :
    (setPassword cryptoW cfgW 1000 (List.range 16) 2 "fresh password".toList dbW10).1
      = .ok () ∧
    ((getCredentialByUserID
        (setPassword cryptoW cfgW 1000 (List.range 16) 2 "fresh password".toList
          dbW10).2 2).map Credential.passwordHash)
      = some (hashPassword cryptoW (List.range 16) "fresh password".toList) ∧
    hashPassword cryptoW (List.range 16) "fresh password".toList
      ≠ credW2.passwordHash ∧
    ¬ ∃ e ∈ (setPassword cryptoW cfgW 1000 (List.range 16) 2
        "fresh password".toList dbW10).2.passwordHistory,
      e.passwordHash = credW2.passwordHash := by
  refine ⟨by rfl, by decide, by decide, ?_⟩
  intro ⟨e, he, _⟩
  have : (setPassword cryptoW cfgW 1000 (List.range 16) 2
      "fresh password".toList dbW10).2.passwordHistory = [] := by decide
  rw [this] at he
  cases he

/-- C3 amended: ChangePassword pushes the previous hash into the password
history before overwriting the credential, but SetPassword does not: it
overwrites the existing credential in place (setting must-change) and
leaves the password history unchanged on every path. -/
theorem C3_history_push_only_in_changePassword (cr : Crypto) (cfg : LocalAuthConfig)
    (now : Nat) (salt : List Nat) (uid : Nat) (cur new : List Char) (ip ua : String)
    (db : AuthDB) (cred : Credential)
    (hc : getCredentialByUserID db uid = some cred)
    (hver : verifyPassword cr cur cred.passwordHash = true)
    (hlen : ¬ new.length < cfg.passwordMinLength)
    (hhist : (getPasswordHistory db uid cfg.passwordHistoryCount).any
      (fun h => verifyPassword cr new h.passwordHash) = false) :
    (changePassword cr cfg now salt uid cur new ip ua db).2.passwordHistory
      = db.passwordHistory ++ [{ userId := uid, passwordHash := cred.passwordHash }] ∧
    (changePassword cr cfg now salt uid cur new ip ua db).1 = .ok () ∧
    (∀ (salt' : List Nat) (pw : List Char) (db' : AuthDB) (uid' : Nat),
      (setPassword cr cfg now salt' uid' pw db').2.passwordHistory
        = db'.passwordHistory) := by
  rw [changePassword_success cr cfg now salt uid cur new ip ua db cred hc hver hlen hhist]
  refine ⟨by simp, rfl, ?_⟩
  intro salt' pw db' uid'
  exact setPassword_passwordHistory cr cfg now salt' uid' pw db'

theorem C3_history_push_only_in_changePassword_witness :
    (changePassword cryptoW cfgW 1000 (List.range 16) 2 "correct horse".toList
      "brand new pw1".toList "ip" "ua" dbW10).2.passwordHistory
      = dbW10.passwordHistory
        ++ [{ userId := 2, passwordHash := credW2.passwordHash }] ∧
    (changePassword cryptoW cfgW 1000 (List.range 16) 2 "correct horse".toList
      "brand new pw1".toList "ip" "ua" dbW10).1 = .ok () ∧
    (setPassword cryptoW cfgW 1000 (List.range 16) 2 "fresh password".toList
      dbW10).2.passwordHistory = dbW10.passwordHistory := by
  have h := C3_history_push_only_in_changePassword cryptoW cfgW 1000 (List.range 16) 2
    "correct horse".toList "brand new pw1".toList "ip" "ua" dbW10 credW2
    (by decide) (by decide) (by decide) (by decide)
  exact ⟨h.1, h.2.1, h.2.2 (List.range 16) "fresh password".toList dbW10 2⟩

@[simp] theorem getMFAByUserID_createBackupCodes (db : AuthDB) (rows : List BackupCode)
    (uid : Nat) :
    getMFAByUserID (createBackupCodes db rows) uid = getMFAByUserID db uid := rfl

/-- C2: for a user in the pending MFA state, ConfirmTOTP with a valid code
flips the config to Enabled and stores exactly ten backup codes, each
hashed with its own independently drawn salt; with an invalid code it fails
with InvalidMFACode and changes nothing.  The Go function however returns
only a bare error value: the ten plaintext codes produced inside the call
are discarded, never reaching the caller — the success value below is the
unit of Except, witnessing the bug against the specified behaviour. -/
theorem C2_confirm_totp_enables_and_discards_codes (cr : Crypto) (now : Nat)
    (rnd : Nat → String × List Nat) (baseId uid : Nat) (code ip ua : String)
    (db : AuthDB) (mfa : MFATotp) (secret : String)
    (hm : getMFAByUserID db uid = some mfa)
    (hen : mfa.isEnabled = false)
    (hd : cr.decryptSecret mfa.secretEncrypted = some secret) :
    (cr.totpValidate code secret = true →
      (confirmTOTP cr now rnd baseId uid code ip ua db).1 = .ok () ∧
      ((getMFAByUserID (confirmTOTP cr now rnd baseId uid code ip ua db).2 uid).map
        MFATotp.isEnabled) = some true ∧
      (confirmTOTP cr now rnd baseId uid code ip ua db).2.backupCodes
        = db.backupCodes ++ (List.range 10).map (fun i =>
            { id := baseId + i, userId := uid,
              codeHash := hashBackupCodeWithSalt cr (rnd i).1.toList (rnd i).2,
              salt := b64encode (rnd i).2, usedAt := none }) ∧
      ((confirmTOTP cr now rnd baseId uid code ip ua db).2.backupCodes).length
        = db.backupCodes.length + 10) ∧
    (cr.totpValidate code secret = false →
      confirmTOTP cr now rnd baseId uid code ip ua db = (.error .invalidMFACode, db)) := by
  constructor
  · intro hv
    rw [confirmTOTP_valid cr now rnd baseId uid code ip ua db mfa secret hm hen hd hv]
    refine ⟨rfl, ?_, by simp, by simp⟩
    simp only [getMFAByUserID_logAudit, getMFAByUserID_createBackupCodes,
      getMFAByUserID_enableMFA, hm, Option.map_some']
  · intro hv
    exact confirmTOTP_invalid cr now rnd baseId uid code ip ua db mfa secret hm hen hd hv

/-- Fixture: userW2's MFA row still pending verification. -/
def mfaPendingW : MFATotp := { userId := 2, secretEncrypted := "SECRET", isEnabled := false }

/-- Fixture: the relational state before ConfirmTOTP. -/
def dbW2 : AuthDB := { users := [userW1, userW2], credentials := [credW2], mfas := [mfaPendingW] }

/-- Fixture: the stream of fresh backup codes and their per-code salts. -/
def rndW : Nat → String × List Nat := fun i => (toString i ++ "ABCDEFG", List.range (i + 3))

theorem C2_confirm_totp_enables_and_discards_codes_witness :
    (confirmTOTP cryptoW 1000 rndW 100 2 "SECRET" "ip" "ua" dbW2).1 = .ok () ∧
    ((getMFAByUserID (confirmTOTP cryptoW 1000 rndW 100 2 "SECRET" "ip" "ua" dbW2).2 2).map
      MFATotp.isEnabled) = some true ∧
    ((confirmTOTP cryptoW 1000 rndW 100 2 "SECRET" "ip" "ua" dbW2).2.backupCodes).length
      = dbW2.backupCodes.length + 10 ∧
    confirmTOTP cryptoW 1000 rndW 100 2 "WRONG" "ip" "ua" dbW2
      = (.error .invalidMFACode, dbW2) := by
  have h1 := C2_confirm_totp_enables_and_discards_codes cryptoW 1000 rndW 100 2
    "SECRET" "ip" "ua" dbW2 mfaPendingW "SECRET" (by decide) (by decide) (by decide)
  have h2 := C2_confirm_totp_enables_and_discards_codes cryptoW 1000 rndW 100 2
    "WRONG" "ip" "ua" dbW2 mfaPendingW "SECRET" (by decide) (by decide) (by decide)
  have hgood := h1.1 (by decide)
  exact ⟨hgood.1, hgood.2.1, hgood.2.2.2, h2.2 (by decide)⟩

/-- C9: two concurrent failed-login handlers each run the increment step
(the atomic repository increment of auth_service.go line 140) and then the
re-read-and-compare step (lines 143 to 149).  In every interleaving of the
two handlers the final counter is the initial one plus two, and whenever
that reaches the threshold the lock-until timestamp is set: no interleaving
lets both attempts narrowly miss the threshold.  The second part ties the
model to the code: one Login failure transforms the credential row by
exactly incr followed by check at the current time. -/
theorem C9_lockout_increment_check_no_race (cfg : LocalAuthConfig) (tA tB : Nat)
    (c : Credential)
    (hth : cfg.lockoutThreshold ≤ c.failedLoginAttempts + 2) :
    (∀ σ ∈ interleavings [FailStep.incr, FailStep.check tA]
        [FailStep.incr, FailStep.check tB],
      (runFailSteps cfg σ c).failedLoginAttempts = c.failedLoginAttempts + 2 ∧
      (runFailSteps cfg σ c).lockedUntil ≠ none) ∧
    (∀ (cr : Crypto) (now : Nat) (mfaTok sid : String) (req : LoginRequest)
        (db : AuthDB) (st : FastStore) (u : User) (c0 : Credential),
      getUserByEmail db req.email = some u →
      u.status = userStatusActive →
      getCredentialByUserID db u.id = some c0 →
      c0.isLocked now = false →
      verifyPassword cr req.password c0.passwordHash = false →
      getCredentialByUserID (login cr cfg now mfaTok sid req db st).2.1 u.id
        = some (runFailSteps cfg [FailStep.incr, FailStep.check now] c0)) := by
  constructor
  · intro σ hσ
    simp only [interleavings, List.map, List.cons_append, List.nil_append,
      List.mem_cons, List.not_mem_nil, or_false] at hσ
    rcases hσ with rfl | rfl | rfl | rfl | rfl | rfl <;>
      · simp only [runFailSteps, failIncr, failCheck]
        split_ifs <;> simp_all
  · intro cr now mfaTok sid req db st u c0 hu hact hc hl hpw
    have h := login_wrong_password_cred cr cfg now mfaTok sid req db st u c0
      hu hact hc hl hpw
    rw [h]
    rfl

/-- Fixture: a credential one failure short of narrowly missing the
threshold when two concurrent failures land. -/
def credC9W : Credential := { userId := 7, passwordHash := [], failedLoginAttempts := 1 }

theorem C9_lockout_increment_check_no_race_witness :
    ((runFailSteps cfgW
        [FailStep.incr, FailStep.incr, FailStep.check 11, FailStep.check 22]
        credC9W).failedLoginAttempts = credC9W.failedLoginAttempts + 2 ∧
      (runFailSteps cfgW
        [FailStep.incr, FailStep.incr, FailStep.check 11, FailStep.check 22]
        credC9W).lockedUntil ≠ none) ∧
    getCredentialByUserID
        (login cryptoW cfgW 1000 "tok" "sid" reqWrongW dbW10 {}).2.1 userW2.id
      = some (runFailSteps cfgW [FailStep.incr, FailStep.check 1000] credW2) := by
  have h := C9_lockout_increment_check_no_race cfgW 11 22 credC9W (by decide)
  exact ⟨h.1 _ (by simp [interleavings]),
    h.2 cryptoW 1000 "tok" "sid" reqWrongW dbW10 {} userW2 credW2
      (by decide) (by decide) (by decide) (by decide) (by decide)⟩

/-! ### ResetPassword equation and helpers for the single-use claim -/

theorem getCredentialByUserID_userId (db : AuthDB) (uid : Nat) {c : Credential}
    (h : getCredentialByUserID db uid = some c) : c.userId = uid := by
  unfold getCredentialByUserID at h
  have := List.find?_some h
  simpa using this

@[simp] theorem sessionRows_markPasswordResetTokenUsed (db : AuthDB) (tid now : Nat) :
    (markPasswordResetTokenUsed db tid now).sessionRows = db.sessionRows := rfl

@[simp] theorem sessionRows_updateCredential (db : AuthDB) (c : Credential) :
    (updateCredential db c).sessionRows = db.sessionRows := rfl

@[simp] theorem sessionRows_createCredential (db : AuthDB) (c : Credential) :
    (createCredential db c).sessionRows = db.sessionRows := rfl

@[simp] theorem sessionRows_deleteUserPasswordResetTokens (db : AuthDB) (uid : Nat) :
    (deleteUserPasswordResetTokens db uid).sessionRows = db.sessionRows := rfl

@[simp] theorem sessionRows_logAudit (db : AuthDB) (u : Option Nat)
    (a tt ti ip ua : String) :
    (logAudit db u a tt ti ip ua).sessionRows = db.sessionRows := rfl

@[simp] theorem sessionRows_revokeAllUserSessions (db : AuthDB) (uid : Nat) (r : String)
    (now : Nat) :
    (revokeAllUserSessions db uid r now).sessionRows
      = db.sessionRows.map (fun s =>
          if s.userId == uid then { s with revokedAt := some now, revokedReason := r }
          else s) := rfl

/-- ResetPassword when no row holds the presented token string. -/
theorem resetPassword_no_token (cr : Crypto) (cfg : LocalAuthConfig) (now : Nat)
    (salt : List Nat) (tokenStr : String) (p : List Char) (db : AuthDB)
    (st : FastStore)
    (hlen : ¬ p.length < cfg.passwordMinLength)
    (hnone : getPasswordResetToken db tokenStr = none) :
    (resetPassword cr cfg now salt tokenStr p p db st).1
      = .error .invalidResetToken := by
  unfold resetPassword
  rw [if_neg (by simp), if_neg hlen, hnone]

/-- The full success path of ResetPassword, for either branch of the
credential-vault SetPassword call. -/
theorem resetPassword_success_eq (cr : Crypto) (cfg : LocalAuthConfig) (now : Nat)
    (salt : List Nat) (tokenStr : String) (newP : List Char)
    (db : AuthDB) (st : FastStore) (token : ResetToken)
    (hlen : ¬ newP.length < cfg.passwordMinLength)
    (htok : getPasswordResetToken db tokenStr = some token)
    (hexp : token.isExpired now = false)
    (hused : token.isUsed = false) :
    ∃ (db2 : AuthDB) (c2 : Credential),
      resetPassword cr cfg now salt tokenStr newP newP db st
        = (.ok (),
           logAudit (revokeAllUserSessions
             (deleteUserPasswordResetTokens db2 token.userId)
             token.userId "logout all" now)
             (some token.userId) "logout_all" "user" (toString token.userId)
             "" "password reset",
           fastDeleteAllUserSessions st token.userId) ∧
      db2.resetTokens = (markPasswordResetTokenUsed db token.id now).resetTokens ∧
      db2.sessionRows = db.sessionRows ∧
      getCredentialByUserID db2 token.userId = some c2 ∧
      c2.passwordHash = hashPassword cr salt newP ∧
      c2.mustChangePassword = true := by
  unfold resetPassword
  rw [if_neg (by simp), if_neg hlen]
  rw [htok]
  dsimp only
  rw [if_neg (by simp [hexp, hused])]
  rcases hcred : getCredentialByUserID (markPasswordResetTokenUsed db token.id now)
    token.userId with _ | e
  · rw [setPassword_new cr cfg now salt token.userId newP _ hlen hcred]
    refine ⟨createCredential (markPasswordResetTokenUsed db token.id now)
      { userId := token.userId, passwordHash := hashPassword cr salt newP,
        passwordChangedAt := some now, failedLoginAttempts := 0,
        lockedUntil := none, mustChangePassword := true },
      { userId := token.userId, passwordHash := hashPassword cr salt newP,
        passwordChangedAt := some now, failedLoginAttempts := 0,
        lockedUntil := none, mustChangePassword := true },
      rfl, by simp, by simp, ?_, rfl, rfl⟩
    exact getCredentialByUserID_createCredential
      (markPasswordResetTokenUsed db token.id now) _ hcred
  · have hkey : e.userId = token.userId :=
      getCredentialByUserID_userId _ _ hcred
    rw [setPassword_existing cr cfg now salt token.userId newP _ e hlen hcred]
    refine ⟨updateCredential (markPasswordResetTokenUsed db token.id now)
      { e with passwordHash := hashPassword cr salt newP,
               passwordChangedAt := some now, mustChangePassword := true },
      { e with passwordHash := hashPassword cr salt newP,
               passwordChangedAt := some now, mustChangePassword := true },
      rfl, by simp, by simp, ?_, rfl, rfl⟩
    have h2 := getCredentialByUserID_updateCredential
      (markPasswordResetTokenUsed db token.id now)
      { e with passwordHash := hashPassword cr salt newP,
               passwordChangedAt := some now, mustChangePassword := true }
    rw [show ({ e with passwordHash := hashPassword cr salt newP,
                       passwordChangedAt := some now,
                       mustChangePassword := true } : Credential).userId
        = token.userId from hkey] at h2
    rw [hkey, h2, hcred]
    rfl

/-- C6: with a valid, unexpired, unused reset token, ResetPassword succeeds
once: it validates match and strength, sets the new password through the
credential vault (must-change set), deletes every outstanding reset token
of the identity (including the consumed one), revokes every fast-store
session and stamps every durable session row of the identity revoked; a
second call with the same token string fails with InvalidResetToken, as do
calls failing the match or strength validation. -/
theorem C6_reset_password_single_use (cr : Crypto) (cfg : LocalAuthConfig) (now : Nat)
    (salt : List Nat) (tokenStr : String) (newP confP : List Char)
    (db : AuthDB) (st : FastStore) (token : ResetToken)
    (hEq : newP = confP)
    (hlen : ¬ newP.length < cfg.passwordMinLength)
    (htok : getPasswordResetToken db tokenStr = some token)
    (hexp : token.isExpired now = false)
    (hused : token.isUsed = false)
    (huniq : ∀ t ∈ db.resetTokens, t.token = tokenStr → t.userId = token.userId) :
    (resetPassword cr cfg now salt tokenStr newP confP db st).1 = .ok () ∧
    (∀ t ∈ (resetPassword cr cfg now salt tokenStr newP confP db st).2.1.resetTokens,
      t.userId ≠ token.userId) ∧
    (∃ c, getCredentialByUserID
        (resetPassword cr cfg now salt tokenStr newP confP db st).2.1 token.userId
        = some c ∧ c.passwordHash = hashPassword cr salt newP ∧
      c.mustChangePassword = true) ∧
    (∀ s ∈ (resetPassword cr cfg now salt tokenStr newP confP db st).2.2.sessions,
      s.userId ≠ token.userId) ∧
    (∀ s ∈ (resetPassword cr cfg now salt tokenStr newP confP db st).2.1.sessionRows,
      s.userId = token.userId → s.revokedAt = some now) ∧
    (∀ (now2 : Nat) (salt2 : List Nat) (p : List Char),
      ¬ p.length < cfg.passwordMinLength →
      (resetPassword cr cfg now2 salt2 tokenStr p p
        (resetPassword cr cfg now salt tokenStr newP confP db st).2.1
        (resetPassword cr cfg now salt tokenStr newP confP db st).2.2).1
        = .error .invalidResetToken) ∧
    (∀ (p q : List Char) (db' : AuthDB) (st' : FastStore), p ≠ q →
      (resetPassword cr cfg now salt tokenStr p q db' st').1
        = .error .passwordMismatch) ∧
    (∀ (p : List Char) (db' : AuthDB) (st' : FastStore),
      p.length < cfg.passwordMinLength →
      (resetPassword cr cfg now salt tokenStr p p db' st').1
        = .error .passwordTooWeak) := by
  subst hEq
  obtain ⟨db2, c2, heq, htoks, hrows, hcred, hhash, hmust⟩ :=
    resetPassword_success_eq cr cfg now salt tokenStr newP db st token hlen htok
      hexp hused
  have hfinaltok : getPasswordResetToken
      (resetPassword cr cfg now salt tokenStr newP newP db st).2.1 tokenStr
      = none := by
    rw [heq]
    unfold getPasswordResetToken
    rw [List.find?_eq_none]
    intro t ht htokstr
    simp only [resetTokens_logAudit, resetTokens_revokeAllUserSessions,
      resetTokens_deleteUserPasswordResetTokens] at ht
    rw [htoks] at ht
    simp only [resetTokens_markPasswordResetTokenUsed] at ht
    have hmem := List.mem_of_mem_filter ht
    have hfil := List.of_mem_filter ht
    obtain ⟨t0, ht0, rfl⟩ := List.mem_map.mp hmem
    have htk : (if t0.id == token.id then { t0 with usedAt := some now }
        else t0).token = t0.token := by split <;> rfl
    have hui : (if t0.id == token.id then { t0 with usedAt := some now }
        else t0).userId = t0.userId := by split <;> rfl
    have h0 : t0.userId = token.userId :=
      huniq t0 ht0 (by rw [← htk]; simpa using htokstr)
    rw [hui, h0] at hfil
    simp at hfil
  refine ⟨?_, ?_, ?_, ?_, ?_, ?_, ?_, ?_⟩
  · rw [heq]
  · rw [heq]
    intro t ht
    simp only [resetTokens_logAudit, resetTokens_revokeAllUserSessions,
      resetTokens_deleteUserPasswordResetTokens] at ht
    have := List.of_mem_filter ht
    simpa using this
  · refine ⟨c2, ?_, hhash, hmust⟩
    rw [heq]
    simp only [getCredentialByUserID_logAudit,
      getCredentialByUserID_revokeAllUserSessions,
      getCredentialByUserID_deleteUserPasswordResetTokens]
    exact hcred
  · rw [heq]
    intro s hs
    simp only [fastDeleteAllUserSessions] at hs
    have := List.of_mem_filter hs
    simpa using this
  · rw [heq]
    intro s hs huid
    simp only [sessionRows_logAudit, sessionRows_revokeAllUserSessions,
      sessionRows_deleteUserPasswordResetTokens] at hs
    rw [hrows] at hs
    obtain ⟨s0, hs0, rfl⟩ := List.mem_map.mp hs
    by_cases h0 : (s0.userId == token.userId) = true
    · simp [h0]
    · simp only [h0, if_false, ite_false] at huid ⊢
      exact absurd (by simpa using huid) (by simpa using h0)
  · intro now2 salt2 p hlp
    exact resetPassword_no_token cr cfg now2 salt2 tokenStr p _ _ hlp hfinaltok
  · intro p q db' st' hne
    unfold resetPassword
    rw [if_pos hne]
  · intro p db' st' hweak
    unfold resetPassword
    rw [if_neg (by simp), if_pos hweak]

/-- Fixture: an outstanding reset token for userW2. -/
def tokW : ResetToken :=
  { id := 9, userId := 2, token := "reset-token", expiresAt := 5000, usedAt := none }

/-- Fixture: the relational state with the reset token outstanding. -/
def dbW6 : AuthDB :=
  { users := [userW1, userW2], credentials := [credW2], resetTokens := [tokW],
    sessionRows := [{ id := "s1", userId := 2, ipAddress := "ip", userAgent := "ua",
                      expiresAt := 9000, lastActivityAt := 100 }] }

/-- Fixture: a fast store with one live session of userW2. -/
def stW6 : FastStore :=
  { sessions := [{ sessionId := "s1", userId := 2, email := "bob@example.com",
                   ipAddress := "ip", userAgent := "ua", createdAt := 100,
                   expiresAt := 9000, lastActivityAt := 100 }] }

theorem C6_reset_password_single_use_witness :
    (resetPassword cryptoW cfgW 1000 (List.range 16) "reset-token"
      "new password9".toList "new password9".toList dbW6 stW6).1 = .ok () ∧
    (∃ c, getCredentialByUserID
        (resetPassword cryptoW cfgW 1000 (List.range 16) "reset-token"
          "new password9".toList "new password9".toList dbW6 stW6).2.1 tokW.userId
        = some c ∧ c.passwordHash
          = hashPassword cryptoW (List.range 16) "new password9".toList ∧
      c.mustChangePassword = true) ∧
    (resetPassword cryptoW cfgW 2000 (List.range 16) "reset-token"
      "other password".toList "other password".toList
      (resetPassword cryptoW cfgW 1000 (List.range 16) "reset-token"
        "new password9".toList "new password9".toList dbW6 stW6).2.1
      (resetPassword cryptoW cfgW 1000 (List.range 16) "reset-token"
        "new password9".toList "new password9".toList dbW6 stW6).2.2).1
      = .error .invalidResetToken ∧
    (resetPassword cryptoW cfgW 1000 (List.range 16) "reset-token"
      "new password9".toList "different pw99".toList dbW6 stW6).1
      = .error .passwordMismatch ∧
    (resetPassword cryptoW cfgW 1000 (List.range 16) "reset-token"
      "short".toList "short".toList dbW6 stW6).1 = .error .passwordTooWeak := by
  have h := C6_reset_password_single_use cryptoW cfgW 1000 (List.range 16)
    "reset-token" "new password9".toList "new password9".toList dbW6 stW6 tokW
    rfl (by decide) (by decide) (by decide) (by decide) (by decide)
  exact ⟨h.1, h.2.2.1,
    h.2.2.2.2.2.1 2000 (List.range 16) "other password".toList (by decide),
    h.2.2.2.2.2.2.1 "new password9".toList "different pw99".toList dbW6 stW6
      (by decide),
    h.2.2.2.2.2.2.2 "short".toList dbW6 stW6 (by decide)⟩

/-! ### Helpers for the backup-code single-use claim -/

theorem find?_eq_some_of_unique {α : Type} (p : α → Bool) {l : List α} {a : α}
    (ha : a ∈ l) (hpa : p a = true) (huniq : ∀ b ∈ l, p b = true → b = a) :
    l.find? p = some a := by
  induction l with
  | nil => cases ha
  | cons x xs ih =>
      by_cases hx : p x = true
      · have hxa : x = a := huniq x (List.mem_cons_self x xs) hx
        simp only [List.find?_cons, hxa, hpa]
      · have hax : a ∈ xs := by
          rcases List.mem_cons.mp ha with rfl | h
          · exact absurd hpa hx
          · exact h
        have hx' : p x = false := by simpa using hx
        simp only [List.find?_cons, hx']
        exact ih hax (fun b hb hpb => huniq b (List.mem_cons_of_mem _ hb) hpb)

/-- Stamping the single row with a given id as used raises the number of
used rows by exactly one, when row ids are distinct and that row was
unused. -/
theorem length_filter_used_mark (now cid : Nat) (l : List BackupCode)
    (hids : (l.map BackupCode.id).Nodup) {bc : BackupCode} (hbc : bc ∈ l)
    (hid : bc.id = cid) (hunused : bc.usedAt = none) :
    ((l.map (fun c => if c.id == cid then { c with usedAt := some now } else c)).filter
        (fun c => !(c.usedAt == none))).length
      = ((l.filter (fun c => !(c.usedAt == none))).length) + 1 := by
  induction l with
  | nil => cases hbc
  | cons x xs ih =>
      simp only [List.map_cons, List.nodup_cons] at hids
      rcases List.mem_cons.mp hbc with rfl | hmem
      · have hx : (bc.id == cid) = true := by simp [hid]
        have hmapxs : xs.map (fun c =>
            if c.id == cid then { c with usedAt := some now } else c) = xs := by
          have hall : ∀ c ∈ xs, (if c.id == cid then
              { c with usedAt := some now } else c) = c := by
            intro c hcx
            have hne : c.id ≠ cid := by
              intro hcc
              exact hids.1 (List.mem_map.mpr ⟨c, hcx, by rw [hcc, hid]⟩)
            simp [hne]
          rw [List.map_congr_left hall]
          simp
        simp only [List.map_cons, hx, if_true, ite_true, hmapxs, List.filter_cons,
          hunused]
        simp
      · have hcidmem : cid ∈ xs.map BackupCode.id :=
          List.mem_map.mpr ⟨bc, hmem, hid⟩
        have hxne : (x.id == cid) = false := by
          have hne : x.id ≠ cid := by
            intro hcc
            exact hids.1 (hcc ▸ hcidmem)
          simpa using hne
        have hrec := ih hids.2 hmem
        simp only [List.map_cons, hxne, Bool.false_eq_true, if_false, ite_false,
          List.filter_cons]
        by_cases hxu : (!(x.usedAt == none)) = true
        · simp only [hxu, if_true, ite_true, List.length_cons, hrec]
        · have hxu' : (!(x.usedAt == none)) = false := by simpa using hxu
          simp only [hxu', Bool.false_eq_true, if_false, ite_false, hrec]

/-- C5: for every issued backup code, consuming it via VerifyBackupCode
succeeds exactly once and sets its used-at marker (the single row with that
id is stamped and the count of used rows rises by exactly one); a second
VerifyBackupCode call with the same code, under any fresh pending MFA token
of the same user, fails with InvalidMFACode; and consumption is terminal:
no modelled operation of the service surface ever reverts a used-at
marker. -/
theorem C5_backup_code_single_use (cr : Crypto) (cfg : LocalAuthConfig)
    (now : Nat) (sid mfaToken code ip ua : String) (db : AuthDB) (st : FastStore)
    (pending : MFAPendingData) (bc : BackupCode) (user : User)
    (hp : getMFAToken st mfaToken now = some pending)
    (hids : (db.backupCodes.map BackupCode.id).Nodup)
    (hbc : bc ∈ db.backupCodes)
    (hbcuid : bc.userId = pending.userId)
    (hunused : bc.usedAt = none)
    (hmatch : backupCodeMatches cr code bc = true)
    (huniq : ∀ c ∈ db.backupCodes, c.userId = pending.userId → c.usedAt = none →
      backupCodeMatches cr code c = true → c = bc)
    (hu : getUserByEmail db pending.email = some user) :
    (∃ resp, (verifyBackupCode cr cfg now sid mfaToken code ip ua db st).1
        = .ok resp ∧ resp.session ≠ none) ∧
    ((verifyBackupCode cr cfg now sid mfaToken code ip ua db st).2.1.backupCodes
      = db.backupCodes.map (fun c =>
          if c.id == bc.id then { c with usedAt := some now } else c)) ∧
    (((verifyBackupCode cr cfg now sid mfaToken code ip ua db st).2.1.backupCodes.filter
        (fun c => !(c.usedAt == none))).length
      = ((db.backupCodes.filter (fun c => !(c.usedAt == none))).length) + 1) ∧
    (∀ (now2 : Nat) (sid2 tok2 ip2 ua2 : String) (st2 : FastStore)
        (pending2 : MFAPendingData),
      getMFAToken st2 tok2 now2 = some pending2 →
      pending2.userId = pending.userId →
      (verifyBackupCode cr cfg now2 sid2 tok2 code ip2 ua2
          (verifyBackupCode cr cfg now sid mfaToken code ip ua db st).2.1 st2).1
        = .error .invalidMFACode) ∧
    (∀ (op : ServiceOp) (db' : AuthDB) (st' : FastStore) (t : Nat)
        (c : BackupCode),
      (db'.backupCodes.map BackupCode.id).Nodup → opFresh op db' →
      c ∈ db'.backupCodes → c.usedAt = some t →
      ∀ c' ∈ (applyOp cr cfg now op (db', st')).1.backupCodes,
        c'.id = c.id → c'.usedAt ≠ none) := by
  have hfind : (getUnusedBackupCodes db pending.userId).find?
      (backupCodeMatches cr code) = some bc := by
    apply find?_eq_some_of_unique
    · exact List.mem_filter.mpr ⟨hbc, by simp [hbcuid, hunused]⟩
    · exact hmatch
    · intro b hb hpb
      obtain ⟨hbmem, hbprop⟩ := List.mem_filter.mp hb
      simp only [Bool.and_eq_true, beq_iff_eq] at hbprop
      exact huniq b hbmem hbprop.1 hbprop.2 hpb
  have heq := verifyBackupCode_match cr cfg now sid mfaToken code ip ua db st
    pending bc user hp hfind hu
  have hbk : (verifyBackupCode cr cfg now sid mfaToken code ip ua db st).2.1.backupCodes
      = db.backupCodes.map (fun c =>
          if c.id == bc.id then { c with usedAt := some now } else c) := by
    rw [heq]
    simp
  refine ⟨⟨{ requiresMFA := false,
             session := some
               { sessionId := sid, userId := user.id, email := user.email,
                 ipAddress := ip, userAgent := ua, createdAt := now,
                 expiresAt := now + cfg.sessionTTL, lastActivityAt := now },
             user := some user }, by rw [heq], by simp⟩, hbk, ?_, ?_, ?_⟩
  · rw [hbk]
    exact length_filter_used_mark now bc.id db.backupCodes hids hbc rfl hunused
  · intro now2 sid2 tok2 ip2 ua2 st2 pending2 hp2 hpu
    have hnone : (getUnusedBackupCodes
        (verifyBackupCode cr cfg now sid mfaToken code ip ua db st).2.1
        pending2.userId).find? (backupCodeMatches cr code) = none := by
      rw [List.find?_eq_none]
      intro x hx
      unfold getUnusedBackupCodes at hx
      rw [hbk] at hx
      obtain ⟨hxmem, hxprop⟩ := List.mem_filter.mp hx
      obtain ⟨c0, hc0, rfl⟩ := List.mem_map.mp hxmem
      by_cases h0 : (c0.id == bc.id) = true
      · exfalso
        simp [h0] at hxprop
      · simp only [h0, if_false, ite_false] at hxprop ⊢
        simp only [Bool.and_eq_true, beq_iff_eq] at hxprop
        intro hm
        have hc0eq := huniq c0 hc0 (hxprop.1.trans hpu) hxprop.2 hm
        rw [hc0eq] at h0
        exact h0 (by simp)
    rw [verifyBackupCode_no_match cr cfg now2 sid2 tok2 code ip2 ua2
      ((verifyBackupCode cr cfg now sid mfaToken code ip ua db st).2.1) st2 pending2
      hp2 hnone]
  · intro op db' st' t c h1 h2 h3 h4
    exact backupCode_use_terminal cr cfg now op db' st' t c h1 h2 h3 h4

/-- Fixture: byte salt of the witness backup code. -/
def saltC5 : List Nat := [5, 17, 200, 9]

/-- Fixture: an unused backup code of userW2 matching the code ABCD-1234. -/
def bcW : BackupCode :=
  { id := 41, userId := 2,
    codeHash := hashBackupCodeWithSalt cryptoW "ABCD-1234".toList saltC5,
    salt := b64encode saltC5 }

/-- Fixture: a second unused backup code of userW2 for a different code. -/
def bcW2 : BackupCode :=
  { id := 42, userId := 2,
    codeHash := hashBackupCodeWithSalt cryptoW "WXYZ-0001".toList saltC5,
    salt := b64encode saltC5 }

/-- Fixture: the relational state with two unused backup codes of userW2. -/
def dbW5 : AuthDB :=
  { users := [userW1, userW2], credentials := [credW2], mfas := [mfaW],
    backupCodes := [bcW, bcW2] }

/-- Fixture: the fast store holding the first pending MFA token. -/
def stW5 : FastStore := { mfaTokens := [("bk-tok", pendW)] }

/-- Fixture: a second pending MFA record for the retry attempt. -/
def pendW5 : MFAPendingData :=
  { userId := 2, email := "bob@example.com", ipAddress := "ip",
    userAgent := "ua", expiresAt := 3000 }

theorem C5_backup_code_single_use_witness :
    (∃ resp, (verifyBackupCode cryptoW cfgW 1000 "sid" "bk-tok" "ABCD-1234"
        "ip" "ua" dbW5 stW5).1 = .ok resp ∧ resp.session ≠ none) ∧
    ((verifyBackupCode cryptoW cfgW 1000 "sid" "bk-tok" "ABCD-1234" "ip" "ua"
        dbW5 stW5).2.1.backupCodes
      = dbW5.backupCodes.map (fun c =>
          if c.id == bcW.id then { c with usedAt := some 1000 } else c)) ∧
    (((verifyBackupCode cryptoW cfgW 1000 "sid" "bk-tok" "ABCD-1234" "ip" "ua"
        dbW5 stW5).2.1.backupCodes.filter (fun c => !(c.usedAt == none))).length
      = ((dbW5.backupCodes.filter (fun c => !(c.usedAt == none))).length) + 1) ∧
    (verifyBackupCode cryptoW cfgW 2000 "sid2" "bk-tok2" "ABCD-1234" "ip" "ua"
        (verifyBackupCode cryptoW cfgW 1000 "sid" "bk-tok" "ABCD-1234" "ip" "ua"
          dbW5 stW5).2.1
        { mfaTokens := [("bk-tok2", pendW5)] }).1 = .error .invalidMFACode := by
  have h := C5_backup_code_single_use cryptoW cfgW 1000 "sid" "bk-tok" "ABCD-1234"
    "ip" "ua" dbW5 stW5 pendW bcW userW2 (by decide) (by decide) (by decide)
    rfl rfl (by decide) (by decide) (by decide)
  exact ⟨h.1, h.2.1, h.2.2.1, h.2.2.2.1 2000 "sid2" "bk-tok2" "ip" "ua"
    { mfaTokens := [("bk-tok2", pendW5)] } pendW5 (by decide) rfl⟩

end Gerege
